import Mathlib

/-!
Verification development for the jsonpath template engine (package jsonpath).

The Go sources are shallowly embedded: the dynamic value trees handled through
the reflect package become the inductive type RValue, machine integers become
Int / Nat (no claim here depends on overflow), float64 values are modelled as
rationals (no claim here depends on rounding), strings are Lean strings with
rune positions in place of byte positions, fallible functions return Except,
and the mutually recursive executor and parser functions take an explicit fuel
argument (every mutual call consumes one unit; exhaustion is the distinguished
error outOfFuel that no theorem below ever confuses with a real result).
-/

namespace JsonpathGo

/-- Dynamic value tree, the shallow embedding of the reflect.Value trees the
executor walks (design note 9 of the spec: Null, Bool, Int, Uint, Float,
String, Array, Mapping, Record).  Pointers and interfaces are transparently
dereferenced by the source (indirect), so vNull stands for any nil reference
and the other constructors for already dereferenced values.  vArr covers the
reflect kinds Array and Slice, vMap covers Map (keys of arbitrary type),
vStruct covers Struct with its declared field order. -/
inductive RValue where
  | vNull : RValue
  | vBool (b : Bool) : RValue
  | vInt (i : Int) : RValue
  | vUint (u : Nat) : RValue
  | vFloat (f : Rat) : RValue
  | vStr (s : String) : RValue
  | vArr (elems : List RValue) : RValue
  | vMap (entries : List (RValue × RValue)) : RValue
  | vStruct (fields : List (String × RValue)) : RValue

/-- Reflect kinds, restricted to the ones the source distinguishes.  kInvalid
is the kind of a nil value after indirect. -/
inductive GoKind where
  | kBool | kInt | kUint | kFloat | kString | kArray | kMap | kStruct | kInvalid
deriving DecidableEq, Repr

def kindOf : RValue → GoKind
  | .vNull => .kInvalid
  | .vBool _ => .kBool
  | .vInt _ => .kInt
  | .vUint _ => .kUint
  | .vFloat _ => .kFloat
  | .vStr _ => .kString
  | .vArr _ => .kArray
  | .vMap _ => .kMap
  | .vStruct _ => .kStruct

/-- Boolean test for the nil leaf. -/
def isNullRV : RValue → Bool
  | .vNull => true
  | _ => false

/-- Embedding of indirect (strutils.go): dereference pointers and interfaces,
reporting whether the value is nil.  In the embedding references are already
transparent, so only vNull is nil. -/
def indirect (v : RValue) : RValue × Bool :=
  (v, isNullRV v)

/-- Embedding of typeHasChildren (executor source). -/
def typeHasChildren : GoKind → Bool
  | .kArray | .kMap | .kStruct => true
  | _ => false

/-- Length of a value as reflect Len returns it for Array/Slice/String/Map
(string length in runes here; no claim depends on byte counts). -/
def rvLen : RValue → Nat
  | .vArr es => es.length
  | .vMap es => es.length
  | .vStr s => s.length
  | _ => 0

/-- Comparison operators (parsetmpl.go comparisonOpTypeEnum).  The parser can
also produce the operator string consisting of a bare exclamation mark (the
source converts whatever operator text it consumed); every compare function
panics on it, which the embedding models by the none result. -/
inductive ComparisonOp where
  | eqOp | neOp | ltOp | gtOp | leOp | geOp | bangOp
deriving DecidableEq, Repr

/-- Logical operators (parsetmpl.go logicalOpTypeEnum). -/
inductive LogicalOp where
  | andOp | orOp | notOp
deriving DecidableEq, Repr

/-- Values carried by a Singular (the interface field Singular.Value): raw Go
scalars produced by evalSingularExpr and the builtin functions, or a wrapped
reflect.Value for structured nodes. -/
inductive SingVal where
  | svBool (b : Bool)
  | svInt (i : Int)
  | svUint (u : Nat)
  | svFloat (f : Rat)
  | svStr (s : String)
  | svReflect (v : RValue)

/-- Conversion reflect.ValueOf applied to a Singular.Value as done at the top
of compareValues: raw scalars become the corresponding reflect value. -/
def singValToR : SingVal → RValue
  | .svBool b => .vBool b
  | .svInt i => .vInt i
  | .svUint u => .vUint u
  | .svFloat f => .vFloat f
  | .svStr s => .vStr s
  | .svReflect v => v

/-- Model of strconv.ParseBool. -/
def goParseBool (s : String) : Option Bool :=
  if s = "1" ∨ s = "t" ∨ s = "T" ∨ s = "TRUE" ∨ s = "true" ∨ s = "True" then some true
  else if s = "0" ∨ s = "f" ∨ s = "F" ∨ s = "FALSE" ∨ s = "false" ∨ s = "False" then some false
  else none

def digitsToNat? (cs : List Char) : Option Nat :=
  if cs = [] ∨ ¬ cs.all (·.isDigit) then none
  else some (cs.foldl (fun acc c => acc * 10 + (c.toNat - 48)) 0)

/-- Model of strconv.ParseInt with base 10 and the given bit size. -/
def goParseIntBits (bits : Nat) (s : String) : Option Int :=
  match s.data with
  | [] => none
  | c :: rest =>
    let signed : Bool × List Char :=
      if c = '-' then (true, rest) else if c = '+' then (false, rest) else (false, c :: rest)
    match digitsToNat? signed.2 with
    | none => none
    | some n =>
      let v : Int := if signed.1 then -(n : Int) else (n : Int)
      if v < -(2 ^ (bits - 1)) ∨ (2 ^ (bits - 1) : Int) - 1 < v then none else some v

/-- Model of strconv.ParseInt with base 10 and 64 bit size. -/
def goParseInt (s : String) : Option Int :=
  goParseIntBits 64 s

/-- Model of strconv.ParseUint with base 10 and 64 bit size (no sign prefix is
permitted). -/
def goParseUint (s : String) : Option Nat :=
  match digitsToNat? s.data with
  | none => none
  | some n => if n < 2 ^ 64 then some n else none

/-- Model of strconv.ParseFloat restricted to plain decimal notation
(optional sign, digits, optional fraction, optional decimal exponent); the
value is represented exactly as a rational.  No claim below depends on float
rounding, infinities or hexadecimal floats. -/
def goParseFloat (s : String) : Option Rat :=
  match s.data with
  | [] => none
  | c :: rest =>
    let signed : Bool × List Char :=
      if c = '-' then (true, rest) else if c = '+' then (false, rest) else (false, c :: rest)
    let ds := signed.2
    let intPart := ds.takeWhile (·.isDigit)
    let afterInt := ds.drop intPart.length
    let fracPart : List Char × List Char :=
      match afterInt with
      | '.' :: t => (t.takeWhile (·.isDigit), t.drop (t.takeWhile (·.isDigit)).length)
      | _ => ([], afterInt)
    let expPart : Option Int × List Char :=
      match fracPart.2 with
      | 'e' :: t | 'E' :: t =>
        let esigned : Bool × List Char :=
          match t with
          | '-' :: t2 => (true, t2)
          | '+' :: t2 => (false, t2)
          | _ => (false, t)
        match digitsToNat? esigned.2 with
        | some n => (some (if esigned.1 then -(n : Int) else (n : Int)), [])
        | none => (none, ['x'])
      | l => (none, l)
    if intPart = [] ∧ fracPart.1 = [] then none
    else if ¬ expPart.2.isEmpty then none
    else
      match digitsToNat? (if intPart = [] then ['0'] else intPart),
        digitsToNat? (if fracPart.1 = [] then ['0'] else fracPart.1) with
      | some ip, some fp =>
        let base : Rat := (ip : Rat) + (fp : Rat) / ((10 : Rat) ^ fracPart.1.length)
        let e : Int := expPart.1.getD 0
        let scaled : Rat := base * (10 : Rat) ^ e
        some (if signed.1 then -scaled else scaled)
      | _, _ => none

/-- Embedding of compareBool (none models the panic of the unknown operator
default branch). -/
def compareBool (l r : Bool) : ComparisonOp → Option Bool
  | .eqOp => some (decide (l = r))
  | .neOp => some (decide (l ≠ r))
  | .ltOp | .gtOp | .leOp | .geOp => some false
  | .bangOp => none

/-- Embedding of compareInt. -/
def compareInt (l r : Int) : ComparisonOp → Option Bool
  | .eqOp => some (decide (l = r))
  | .neOp => some (decide (l ≠ r))
  | .ltOp => some (decide (l < r))
  | .gtOp => some (decide (l > r))
  | .leOp => some (decide (l ≤ r))
  | .geOp => some (decide (l ≥ r))
  | .bangOp => none

/-- Embedding of compareUint. -/
def compareUint (l r : Nat) : ComparisonOp → Option Bool
  | .eqOp => some (decide (l = r))
  | .neOp => some (decide (l ≠ r))
  | .ltOp => some (decide (l < r))
  | .gtOp => some (decide (l > r))
  | .leOp => some (decide (l ≤ r))
  | .geOp => some (decide (l ≥ r))
  | .bangOp => none

/-- Embedding of compareFloat (float64 modelled as rationals). -/
def compareFloat (l r : Rat) : ComparisonOp → Option Bool
  | .eqOp => some (decide (l = r))
  | .neOp => some (decide (l ≠ r))
  | .ltOp => some (decide (l < r))
  | .gtOp => some (decide (l > r))
  | .leOp => some (decide (l ≤ r))
  | .geOp => some (decide (l ≥ r))
  | .bangOp => none

/-- Embedding of compareString (byte wise lexicographic order in the source,
modelled by the character wise lexicographic order on Lean strings). -/
def compareString (l r : String) : ComparisonOp → Option Bool
  | .eqOp => some (decide (l = r))
  | .neOp => some (decide (l ≠ r))
  | .ltOp => some (decide (l < r))
  | .gtOp => some (decide (r < l))
  | .leOp => some (decide (l ≤ r))
  | .geOp => some (decide (r ≤ l))
  | .bangOp => none

/-- Embedding of compareBoolTo. -/
def compareBoolTo (l : Bool) (r : RValue) (op : ComparisonOp) : Option Bool :=
  match r with
  | .vBool rb => compareBool l rb op
  | .vStr s =>
    match goParseBool s with
    | none => some false
    | some b => compareBool l b op
  | _ => some false

/-- Embedding of compareIntTo. -/
def compareIntTo (l : Int) (r : RValue) (op : ComparisonOp) : Option Bool :=
  match r with
  | .vInt ri => compareInt l ri op
  | .vUint ru =>
    if l < 0 then
      match op with
      | .eqOp => some false
      | .neOp => some true
      | .ltOp | .leOp => some true
      | .gtOp | .geOp => some false
      | .bangOp => none
    else compareUint l.toNat ru op
  | .vFloat rf => compareFloat (l : Rat) rf op
  | .vStr s =>
    match goParseInt s with
    | none => some false
    | some ri => compareInt l ri op
  | _ => some false

/-- Embedding of compareUintTo. -/
def compareUintTo (l : Nat) (r : RValue) (op : ComparisonOp) : Option Bool :=
  match r with
  | .vInt ri =>
    if ri < 0 then
      match op with
      | .eqOp => some false
      | .neOp => some true
      | .ltOp | .leOp => some false
      | .gtOp | .geOp => some true
      | .bangOp => none
    else compareUint l ri.toNat op
  | .vUint ru => compareUint l ru op
  | .vFloat rf => compareFloat (l : Rat) rf op
  | .vStr s =>
    match goParseUint s with
    | none => some false
    | some ru => compareUint l ru op
  | _ => some false

/-- Embedding of compareFloatTo. -/
def compareFloatTo (l : Rat) (r : RValue) (op : ComparisonOp) : Option Bool :=
  match r with
  | .vInt ri => compareFloat l (ri : Rat) op
  | .vUint ru => compareFloat l (ru : Rat) op
  | .vFloat rf => compareFloat l rf op
  | .vStr s =>
    match goParseFloat s with
    | none => some false
    | some rf => compareFloat l rf op
  | _ => some false

/-- Embedding of compareStringTo. -/
def compareStringTo (l : String) (r : RValue) (op : ComparisonOp) : Option Bool :=
  match r with
  | .vInt ri =>
    match goParseInt l with
    | none => some false
    | some li => compareInt li ri op
  | .vUint ru =>
    match goParseUint l with
    | none => some false
    | some lu => compareUint lu ru op
  | .vFloat rf =>
    match goParseFloat l with
    | none => some false
    | some lf => compareFloat lf rf op
  | .vBool rb =>
    match goParseBool l with
    | none => some false
    | some lb => compareBool lb rb op
  | .vStr rs => compareString l rs op
  | _ => some false

/-- Lookup of a struct field by name (reflect FieldByName); none models the
invalid zero Value for a missing field. -/
def structField (fields : List (String × RValue)) (n : String) : Option RValue :=
  (fields.find? (fun p => p.1 = n)).map (·.2)

mutual

/-- Structural equality test on dynamic values, modelling the Go equality used
on map keys. -/
def rvBeq : RValue → RValue → Bool
  | .vNull, .vNull => true
  | .vBool a, .vBool b => a == b
  | .vInt a, .vInt b => a == b
  | .vUint a, .vUint b => a == b
  | .vFloat a, .vFloat b => a == b
  | .vStr a, .vStr b => a == b
  | .vArr xs, .vArr ys => rvBeqList xs ys
  | .vMap xs, .vMap ys => rvBeqPairs xs ys
  | .vStruct xs, .vStruct ys => rvBeqFields xs ys
  | _, _ => false

def rvBeqList : List RValue → List RValue → Bool
  | [], [] => true
  | x :: xs, y :: ys => rvBeq x y && rvBeqList xs ys
  | _, _ => false

def rvBeqPairs : List (RValue × RValue) → List (RValue × RValue) → Bool
  | [], [] => true
  | (k1, v1) :: xs, (k2, v2) :: ys => rvBeq k1 k2 && rvBeq v1 v2 && rvBeqPairs xs ys
  | _, _ => false

def rvBeqFields : List (String × RValue) → List (String × RValue) → Bool
  | [], [] => true
  | (k1, v1) :: xs, (k2, v2) :: ys => k1 == k2 && rvBeq v1 v2 && rvBeqFields xs ys
  | _, _ => false

end

/-- Lookup of a map entry by key (reflect MapIndex); none models the invalid
zero Value for a missing key. -/
def mapIndex (entries : List (RValue × RValue)) (k : RValue) : Option RValue :=
  (entries.find? (fun p => rvBeq p.1 k)).map (·.2)

/-- Model of reflect IsZero on a successfully looked up child value: the
children reached here are interface typed, whose zero value is nil. -/
def isZeroGo (v : RValue) : Bool :=
  isNullRV v

/-- Model of reflect Len: defined for Array/Slice/Map/String, and a panic
(none) for every other kind, notably Struct. -/
def reflectLen : RValue → Option Nat
  | .vArr es => some es.length
  | .vMap es => some es.length
  | .vStr s => some s.length
  | _ => none

mutual

/-- Embedding of compareRValues.  The result none models a Go runtime panic
(or fuel exhaustion); the source panics in its unreachable default branches
and, through reflect, on Len/IsZero misuse inside compareNamedValues. -/
def compareRValues : Nat → RValue → RValue → ComparisonOp → Option Bool
  | 0, _, _, _ => none
  | fuel + 1, l, r, op =>
    let lp := indirect l
    let rp := indirect r
    if lp.2 || rp.2 then some (lp.2 == rp.2)
    else
      match lp.1 with
      | .vBool b => compareBoolTo b rp.1 op
      | .vInt i => compareIntTo i rp.1 op
      | .vUint u => compareUintTo u rp.1 op
      | .vFloat f => compareFloatTo f rp.1 op
      | .vStr s => compareStringTo s rp.1 op
      | .vMap _ | .vStruct _ => compareNamedValuesTo fuel lp.1 rp.1 op
      | .vArr _ => compareArrayTo fuel lp.1 rp.1 op
      | .vNull => none

/-- Embedding of compareArrayTo. -/
def compareArrayTo : Nat → RValue → RValue → ComparisonOp → Option Bool
  | 0, _, _, _ => none
  | fuel + 1, l, r, op =>
    match r with
    | .vArr _ => compareArray fuel l r op
    | .vNull => none
    | _ => some false

/-- Embedding of compareArray. -/
def compareArray : Nat → RValue → RValue → ComparisonOp → Option Bool
  | 0, _, _, _ => none
  | fuel + 1, l, r, op =>
    match op with
    | .eqOp | .neOp =>
      match l, r with
      | .vArr ls, .vArr rs =>
        if ls.length ≠ rs.length then some (decide (op ≠ .eqOp))
        else compareArrayLoop fuel (ls.zip rs) op
      | _, _ => none
    | .ltOp | .gtOp | .leOp | .geOp => some false
    | .bangOp => none

/-- Element loop of compareArray. -/
def compareArrayLoop : Nat → List (RValue × RValue) → ComparisonOp → Option Bool
  | 0, _, _ => none
  | _ + 1, [], op => some (decide (op = .eqOp))
  | fuel + 1, (le, re) :: rest, op =>
    match compareRValues fuel le re op with
    | none => none
    | some res =>
      if ¬ res then some (decide (op ≠ .eqOp))
      else compareArrayLoop fuel rest op

/-- Embedding of compareNamedValuesTo. -/
def compareNamedValuesTo : Nat → RValue → RValue → ComparisonOp → Option Bool
  | 0, _, _, _ => none
  | fuel + 1, l, r, op =>
    match r with
    | .vMap _ | .vStruct _ => compareNamedValues fuel l r op
    | .vNull => none
    | _ => some false

/-- Embedding of compareNamedValues.  The source first evaluates Len on both
sides, which panics on a Struct value, then walks the fields of the left side
and resolves each name on the right side, treating a zero right value as a
missing field (IsZero itself panics on the invalid value of a truly absent
field). -/
def compareNamedValues : Nat → RValue → RValue → ComparisonOp → Option Bool
  | 0, _, _, _ => none
  | fuel + 1, l, r, op =>
    match op with
    | .eqOp | .neOp =>
      match reflectLen l, reflectLen r with
      | some ll, some rl =>
        if ll ≠ rl then some (decide (op ≠ .eqOp))
        else
          match l with
          | .vStruct lf => compareNamedStructLoop fuel lf r op
          | .vMap lm => compareNamedMapLoop fuel lm r op
          | _ => none
      | _, _ => none
    | .ltOp | .gtOp | .leOp | .geOp => some false
    | .bangOp => none

/-- Field loop of compareNamedValues for a Struct left operand. -/
def compareNamedStructLoop :
    Nat → List (String × RValue) → RValue → ComparisonOp → Option Bool
  | 0, _, _, _ => none
  | _ + 1, [], _, op => some (decide (op = .eqOp))
  | fuel + 1, (fieldName, leftFieldVal) :: rest, r, op =>
    let rightFieldVal : Option RValue :=
      match r with
      | .vStruct rf => structField rf fieldName
      | .vMap rm => mapIndex rm (.vStr fieldName)
      | _ => none
    match r, rightFieldVal with
    | .vStruct _, none | .vMap _, none => none
    | .vStruct _, some rv | .vMap _, some rv =>
      if isZeroGo rv then some (decide (op ≠ .eqOp))
      else
        match compareRValues fuel leftFieldVal rv op with
        | none => none
        | some fieldResult =>
          if ¬ fieldResult then some (decide (op ≠ .eqOp))
          else compareNamedStructLoop fuel rest r op
    | _, _ => none

/-- Field loop of compareNamedValues for a Map left operand. -/
def compareNamedMapLoop :
    Nat → List (RValue × RValue) → RValue → ComparisonOp → Option Bool
  | 0, _, _, _ => none
  | _ + 1, [], _, op => some (decide (op = .eqOp))
  | fuel + 1, (fieldKey, leftFieldVal) :: rest, r, op =>
    match r with
    | .vStruct rf =>
      match fieldKey with
      | .vStr ks =>
        match structField rf ks with
        | none => none
        | some rv =>
          if isZeroGo rv then some (decide (op ≠ .eqOp))
          else
            match compareRValues fuel leftFieldVal rv op with
            | none => none
            | some fieldResult =>
              if ¬ fieldResult then some (decide (op ≠ .eqOp))
              else compareNamedMapLoop fuel rest r op
      | _ => some (decide (op ≠ .eqOp))
    | .vMap rm =>
      match mapIndex rm fieldKey with
      | none => none
      | some rv =>
        if isZeroGo rv then some (decide (op ≠ .eqOp))
        else
          match compareRValues fuel leftFieldVal rv op with
          | none => none
          | some fieldResult =>
            if ¬ fieldResult then some (decide (op ≠ .eqOp))
            else compareNamedMapLoop fuel rest r op
    | _ => none

end

/-- Embedding of compareValues (executor source lines 701 to 719).  A missing
operand is a nil Singular pointer, modelled as the outer none; a JSON null
operand is a Singular whose Value is nil, modelled as some none. -/
def compareValues (fuel : Nat) (l r : Option (Option SingVal)) (op : ComparisonOp) :
    Option Bool :=
  if l.isNone || r.isNone then some (l.isNone && r.isNone)
  else
    match l, r with
    | some lv, some rv =>
      if lv.isNone || rv.isNone then some (lv.isNone && rv.isNone)
      else
        match lv, rv with
        | some lsv, some rsv => compareRValues fuel (singValToR lsv) (singValToR rsv) op
        | _, _ => none
    | _, _ => none

/-- Node identifier symbols (parsetmpl.go): the Root and Current roots. -/
inductive NodeIdentifierSymbol where
  | rootNodeSymbol
  | currentNodeSymbol
deriving DecidableEq, Repr

/-- Segment types (parsetmpl.go segmentTypeEnum). -/
inductive SegmentType where
  | childSegmentType
  | descendantSegmentType
deriving DecidableEq, Repr

/-- Embedding of optionalInt (parsetmpl.go). -/
structure OptionalInt where
  isDefined : Bool
  intValue : Int
deriving DecidableEq, Repr

def undefinedOptionalInt : OptionalInt := ⟨false, 0⟩

mutual

/-- Selector variants (parsetmpl.go).  The slice selector field named end in
the source is called stop here because end is a Lean keyword. -/
inductive Selector where
  | wildcardSelector : Selector
  | nameSelector (name : String) : Selector
  | indexSelector (index : Int) : Selector
  | arraySliceSelector (start stop : OptionalInt) (step : Int) : Selector
  | filterSelector (expr : FilterExpr) : Selector

/-- Embedding of segmentImpl. -/
inductive SegmentAst where
  | mk (segmentType : SegmentType) (selectors : List Selector) : SegmentAst

/-- Filter expression variants (parsetmpl.go).  A logicalExpr with notOp has
right equal to none. -/
inductive FilterExpr where
  | logicalExpr (left : FilterExpr) (right : Option FilterExpr) (logicalOp : LogicalOp) : FilterExpr
  | compareExpr (left right : FilterExpr) (compareOp : ComparisonOp) : FilterExpr
  | filterQry (evalExistenceOnly : Bool) (parser : QueryParserAst) : FilterExpr
  | functionExpr (fct : String) (args : List FilterExpr) : FilterExpr
  | parenExpr (inner : FilterExpr) : FilterExpr
  | stringLiteral (val : String) : FilterExpr
  | intLiteral (val : Int) : FilterExpr
  | floatLiteral (val : Rat) : FilterExpr
  | boolLiteral (val : Bool) : FilterExpr
  | nullLiteral : FilterExpr

/-- Embedding of nodeIdentifier: the root symbol plus the segment list. -/
inductive NodeIdentifier where
  | mk (nodeIdentifierSymbol : NodeIdentifierSymbol) (segments : List SegmentAst) : NodeIdentifier

/-- Embedding of queryParser viewed as the produced AST: name, root node
identifier and the singular flag.  The embedded cursor field p of the source
carries no query semantics and is dropped. -/
inductive QueryParserAst where
  | mk (name : String) (root : NodeIdentifier) (isSingular : Bool) : QueryParserAst

end

def SegmentAst.getType : SegmentAst → SegmentType
  | .mk t _ => t

def SegmentAst.getSelectors : SegmentAst → List Selector
  | .mk _ sels => sels

def NodeIdentifier.symbol : NodeIdentifier → NodeIdentifierSymbol
  | .mk s _ => s

def NodeIdentifier.segments : NodeIdentifier → List SegmentAst
  | .mk _ segs => segs

def QueryParserAst.name : QueryParserAst → String
  | .mk n _ _ => n

def QueryParserAst.root : QueryParserAst → NodeIdentifier
  | .mk _ r _ => r

def QueryParserAst.isSingular : QueryParserAst → Bool
  | .mk _ _ b => b

/-- Embedding of the singularity loop of parseInnerQuery (parseqry.go lines 75
to 90): every segment must be a Child segment holding exactly one selector
that is a name selector or an index selector. -/
def computeIsSingular : List SegmentAst → Bool
  | [] => true
  | s :: rest =>
    if s.getType = .descendantSegmentType then false
    else
      match s.getSelectors with
      | [.nameSelector _] => computeIsSingular rest
      | [.indexSelector _] => computeIsSingular rest
      | _ => false

/-- Execution and runtime failures.  missingKey covers exactly the
ExecutionError values produced at the missing key guards of the name, index
and slice selectors; notSingular is the plain error of evalSingularExpr for a
multi element ResultSet; execution covers the remaining ExecutionError sites;
panicErr models Go panics; outOfFuel is the fuel sentinel of the embedding. -/
inductive ExecErr where
  | missingKey (parserName msg : String)
  | notSingular (msg : String)
  | execution (parserName msg : String)
  | plainErr (msg : String)
  | panicErr (msg : String)
  | outOfFuel
deriving DecidableEq, Repr

def ExecErr.isMissingKey : ExecErr → Bool
  | .missingKey _ _ => true
  | _ => false

/-- Embedding of QueryResult: a ResultSet (whose Elems slice can be the nil
slice, modelled by none) or a Singular (whose Value can be nil). -/
inductive QueryResult where
  | resultSet (elems : Option (List RValue)) : QueryResult
  | singular (value : Option SingVal) : QueryResult

/-- Embedding of QueryFunction: the argument values can be nil interface
values, and so can the result. -/
def QueryFunction : Type :=
  List (Option QueryResult) → Except ExecErr (Option QueryResult)

/-- Embedding of functionRegistry, as an association list. -/
abbrev FunctionRegistry : Type :=
  List (String × QueryFunction)

def registryLookup (r : FunctionRegistry) (n : String) : Option QueryFunction :=
  (List.find? (fun p => p.1 = n) r).map (·.2)

/-- Embedding of qryExecContext. -/
structure qryExecContext where
  name : String
  dataRoot : RValue
  evalExistenceOnly : Bool
  allowMissingKeys : Bool
  remainingSegments : List SegmentAst
  functions : FunctionRegistry
  enableDbgMsgs : Bool
  curSegment : Option SegmentAst
  curSelector : Option Selector

/-- Embedding of qryExecContext.areMissingKeysAllowed. -/
def qryExecContext.areMissingKeysAllowed (ctx : qryExecContext) : Bool :=
  ctx.allowMissingKeys ||
    (match ctx.curSegment with
     | some s => decide (s.getType ≠ .childSegmentType)
     | none => false)

/-- Embedding of qryExecContext.isDescending. -/
def qryExecContext.isDescending (ctx : qryExecContext) : Bool :=
  match ctx.curSegment with
  | some s => decide (s.getType = .descendantSegmentType)
  | none => false

/-- Embedding of qryExecContext.duplicateAndTakeFirstSegmentOff. -/
def qryExecContext.duplicateAndTakeFirstSegmentOff (ctx : qryExecContext) : qryExecContext :=
  { ctx with remainingSegments := ctx.remainingSegments.tail }

/-- Field keys handed to selector evaluation functions by walkChildren: a
string for struct fields and for array elements (where it is empty), a
reflect value for map keys. -/
inductive FieldKey where
  | fkStr (s : String)
  | fkVal (v : RValue)

/-- States of the selector evaluation closures passed to walkChildren: the
captured variables of the corresponding Go closures, with the mutable ones
(missingKey of the name selector, nextSliceIndex of the slice selector)
threaded explicitly. -/
inductive SelClosure where
  | wildcardF
  | nameF (name : String) (missingKey : Bool)
  | indexF (selIndex : Int)
  | sliceF (sliceEnd stepDir sliceStep nextSliceIndex : Int)
  | sliceNonArrayF
  | filterF (expr : FilterExpr)

/-- Current value of the missingKey variable captured by the name selector
closure. -/
def SelClosure.missingFlag : SelClosure → Bool
  | .nameF _ mk => mk
  | _ => true

/-- Model of the Go type assertion Value.(bool) applied to the Value of a
possibly nil Singular pointer: none is the nil pointer dereference or failed
cast panic. -/
def boolOfSingularPtr : Option (Option SingVal) → Option Bool
  | some (some (.svBool b)) => some b
  | _ => none

/-- ResultSet pointer: none is the nil pointer. -/
abbrev RSet := Option (List RValue)

/-- Resolution of the slice parameters (executor source lines 316 to 349):
defaults for an undefined start and end, direction dependent defaults for a
negative step, and resolution of negative start and end values against the
array length (only the start is clamped at zero).  Returns the triple of
sliceStart, sliceEnd and the direction variable named step in the source. -/
def resolveSliceParams (arrLength : Int) (start stop : OptionalInt) (sliceStep : Int) :
    Int × Int × Int :=
  let defaults : Int × Int × Int :=
    if sliceStep < 0 then
      (if arrLength ≥ 1 then arrLength - 1 else 0, -1, -1)
    else (0, arrLength, 1)
  let sliceStart : Int :=
    if start.isDefined then
      if start.intValue < 0 then
        if arrLength + start.intValue > 0 then arrLength + start.intValue else 0
      else start.intValue
    else defaults.1
  let sliceEnd : Int :=
    if stop.isDefined then
      if stop.intValue < 0 then arrLength + stop.intValue else stop.intValue
    else defaults.2.1
  (sliceStart, sliceEnd, defaults.2.2)

mutual

/-- Embedding of executeQuery. -/
def executeQuery : Nat → QueryParserAst → RValue → RValue → Bool → Bool →
    FunctionRegistry → Bool → Except ExecErr RSet
  | 0, _, _, _, _, _, _, _ => .error .outOfFuel
  | fuel + 1, p, rootDataNode, currDataNode, evalExistenceOnly, allowMissingKeys, fcts, dbgMsgs =>
    let qryRoot : RValue :=
      match p.root.symbol with
      | .rootNodeSymbol => rootDataNode
      | .currentNodeSymbol => currDataNode
    findResults fuel
      { name := p.name, dataRoot := rootDataNode, evalExistenceOnly := evalExistenceOnly,
        allowMissingKeys := allowMissingKeys, remainingSegments := p.root.segments,
        functions := fcts, enableDbgMsgs := dbgMsgs, curSegment := none, curSelector := none }
      qryRoot

/-- Embedding of findResults. -/
def findResults : Nat → qryExecContext → RValue → Except ExecErr RSet
  | 0, _, _ => .error .outOfFuel
  | fuel + 1, ctx, curNode =>
    match ctx.remainingSegments with
    | [] => .ok (some [curNode])
    | seg :: _ =>
      let np := indirect curNode
      if np.2 then .ok (some [])
      else
        let ctx1 := { ctx with curSegment := some seg }
        findResultsLoop fuel ctx1 np.1 seg.getSelectors []

/-- Selector loop of findResults. -/
def findResultsLoop : Nat → qryExecContext → RValue → List Selector → List RValue →
    Except ExecErr RSet
  | 0, _, _, _, _ => .error .outOfFuel
  | _ + 1, _, _, [], results => .ok (some results)
  | fuel + 1, ctx, n, sel :: rest, results =>
    let ctx2 := { ctx with curSelector := some sel }
    match selectChildrenAndFindResultsForThem fuel ctx2.duplicateAndTakeFirstSegmentOff n with
    | .error e => .error e
    | .ok nodeResults =>
      if nodeResults.isSome ∧ (nodeResults.getD []).length > 0 then
        if ctx.evalExistenceOnly then .ok nodeResults
        else findResultsLoop fuel ctx n rest (results ++ nodeResults.getD [])
      else findResultsLoop fuel ctx n rest results

/-- Embedding of selectChildrenAndFindResultsForThem. -/
def selectChildrenAndFindResultsForThem : Nat → qryExecContext → RValue →
    Except ExecErr RSet
  | 0, _, _ => .error .outOfFuel
  | fuel + 1, ctx, curNode =>
    let np := indirect curNode
    if np.2 then .ok (some [])
    else
      match ctx.curSelector with
      | some .wildcardSelector => selectAllChildrenAndFindResultsForThem fuel ctx np.1
      | some (.nameSelector _) => selectChildByNameAndFindResultsForThem fuel ctx np.1
      | some (.indexSelector _) => selectChildByIndexAndFindResultsForThem fuel ctx np.1
      | some (.arraySliceSelector _ _ _) => selectChildrenBySliceAndFindResultsForThem fuel ctx np.1
      | some (.filterSelector _) => selectChildrenByFilterAndFindResultsForThem fuel ctx np.1
      | none => .error (.panicErr "unknown selectorType")

/-- Embedding of selectAllChildrenAndFindResultsForThem. -/
def selectAllChildrenAndFindResultsForThem : Nat → qryExecContext → RValue →
    Except ExecErr RSet
  | 0, _, _ => .error .outOfFuel
  | fuel + 1, ctx, curNode =>
    match walkChildren fuel ctx curNode false .wildcardF with
    | .error e => .error e.1
    | .ok r => .ok r.1

/-- Embedding of selectChildByNameAndFindResultsForThem. -/
def selectChildByNameAndFindResultsForThem : Nat → qryExecContext → RValue →
    Except ExecErr RSet
  | 0, _, _ => .error .outOfFuel
  | fuel + 1, ctx, curNode =>
    match ctx.curSelector with
    | some (.nameSelector nm) =>
      let guardErr : Option ExecErr :=
        if ¬ ctx.areMissingKeysAllowed then
          let np := indirect curNode
          if np.2 then some (.missingKey ctx.name "value is nil")
          else
            match kindOf np.1 with
            | .kStruct | .kMap => none
            | _ => some (.missingKey ctx.name "object not of named-values type")
        else none
      match guardErr with
      | some e => .error e
      | none =>
        match walkChildren fuel ctx curNode false (.nameF nm true) with
        | .error e =>
          if ¬ ctx.areMissingKeysAllowed ∧ e.2.missingFlag then
            .error (.missingKey ctx.name "key does not exist")
          else .error e.1
        | .ok r =>
          if ¬ ctx.areMissingKeysAllowed ∧ r.2.missingFlag then
            .error (.missingKey ctx.name "key does not exist")
          else .ok r.1
    | _ => .error (.panicErr "selector cast")

/-- Embedding of selectChildByIndexAndFindResultsForThem. -/
def selectChildByIndexAndFindResultsForThem : Nat → qryExecContext → RValue →
    Except ExecErr RSet
  | 0, _, _ => .error .outOfFuel
  | fuel + 1, ctx, curNode =>
    let np := indirect curNode
    if np.2 then .ok (some [])
    else
      match ctx.curSelector with
      | some (.indexSelector idx) =>
        match kindOf np.1 with
        | .kArray | .kString =>
          let lenN : Int := (rvLen np.1 : Int)
          let selIndex : Int := if idx < 0 then lenN + idx else idx
          if ¬ ctx.areMissingKeysAllowed ∧ (selIndex ≥ lenN ∨ selIndex < 0) then
            .error (.missingKey ctx.name "index-selector > length")
          else
            match walkChildren fuel ctx curNode false (.indexF selIndex) with
            | .error e => .error e.1
            | .ok r => .ok r.1
        | _ =>
          if ¬ ctx.areMissingKeysAllowed then
            .error (.missingKey ctx.name "index-selector for non-array object")
          else
            match walkChildren fuel ctx curNode false (.indexF idx) with
            | .error e => .error e.1
            | .ok r => .ok r.1
      | _ => .error (.panicErr "selector cast")

/-- Embedding of selectChildrenBySliceAndFindResultsForThem. -/
def selectChildrenBySliceAndFindResultsForThem : Nat → qryExecContext → RValue →
    Except ExecErr RSet
  | 0, _, _ => .error .outOfFuel
  | fuel + 1, ctx, curNode =>
    let np := indirect curNode
    if np.2 then .ok (some [])
    else
      match ctx.curSelector with
      | some (.arraySliceSelector start stop sliceStep) =>
        match kindOf curNode with
        | .kArray | .kString =>
          let arrLength : Int := (rvLen curNode : Int)
          if sliceStep = 0 then .ok none
          else
            let params := resolveSliceParams arrLength start stop sliceStep
            match walkChildren fuel ctx curNode (decide (params.2.2 < 0))
                (.sliceF params.2.1 params.2.2 sliceStep params.1) with
            | .error e => .error e.1
            | .ok r => .ok r.1
        | _ =>
          if ¬ ctx.areMissingKeysAllowed then
            .error (.missingKey ctx.name "slice-selector on non-array object")
          else
            match walkChildren fuel ctx curNode false .sliceNonArrayF with
            | .error e => .error e.1
            | .ok r => .ok r.1
      | _ => .error (.panicErr "selector cast")

/-- Embedding of selectChildrenByFilterAndFindResultsForThem. -/
def selectChildrenByFilterAndFindResultsForThem : Nat → qryExecContext → RValue →
    Except ExecErr RSet
  | 0, _, _ => .error .outOfFuel
  | fuel + 1, ctx, curNode =>
    match ctx.curSelector with
    | some (.filterSelector expr) =>
      match walkChildren fuel ctx curNode false (.filterF expr) with
      | .error e => .error e.1
      | .ok r => .ok r.1
    | _ => .error (.panicErr "selector cast")

/-- Embedding of doWithSelected up to the descent step. -/
def doWithSelected : Nat → qryExecContext → RValue → Except ExecErr RSet
  | 0, _, _ => .error .outOfFuel
  | fuel + 1, ctx, selected =>
    let np := indirect selected
    match ctx.remainingSegments with
    | [] =>
      if ctx.evalExistenceOnly then .ok (some [selected])
      else doWithSelectedDescend fuel ctx np [selected]
    | _ :: _ =>
      if np.2 then .ok (some [])
      else
        match findResults fuel ctx np.1 with
        | .error e => .error e
        | .ok childResults =>
          if childResults.isSome ∧ (childResults.getD []).length > 0 then
            if ctx.evalExistenceOnly then .ok childResults
            else doWithSelectedDescend fuel ctx np (childResults.getD [])
          else doWithSelectedDescend fuel ctx np []

/-- Descent step of doWithSelected: within a Descendant segment, rerun the
same selector on the children of the selected node and append the results. -/
def doWithSelectedDescend : Nat → qryExecContext → RValue × Bool → List RValue →
    Except ExecErr RSet
  | 0, _, _, _ => .error .outOfFuel
  | fuel + 1, ctx, np, selectedNodeResults =>
    if ¬ np.2 ∧ ctx.isDescending ∧ typeHasChildren (kindOf np.1) then
      match selectChildrenAndFindResultsForThem fuel ctx np.1 with
      | .error e => .error e
      | .ok descendantResults =>
        if descendantResults.isSome ∧ (descendantResults.getD []).length > 0 then
          if ctx.evalExistenceOnly then .ok descendantResults
          else .ok (some (selectedNodeResults ++ descendantResults.getD []))
        else .ok (some selectedNodeResults)
    else .ok (some selectedNodeResults)

/-- Embedding of doWithNotSelected. -/
def doWithNotSelected : Nat → qryExecContext → RValue → Except ExecErr RSet
  | 0, _, _ => .error .outOfFuel
  | fuel + 1, ctx, notSelected =>
    let np := indirect notSelected
    if np.2 then .ok (some [])
    else if ctx.isDescending ∧ typeHasChildren (kindOf np.1) then
      selectChildrenAndFindResultsForThem fuel ctx np.1
    else .ok (some [])

/-- Embedding of walkChildren: prepares the child enumeration of the current
node (fields in declared order, map entries in their enumeration order, array
elements in index order or reversed under reverseOrder) and runs the walk
loop.  The closure state is threaded in and out, also on the error path. -/
def walkChildren : Nat → qryExecContext → RValue → Bool → SelClosure →
    Except (ExecErr × SelClosure) (RSet × SelClosure)
  | 0, _, _, _, cls => .error (.outOfFuel, cls)
  | fuel + 1, ctx, curNode, reverseOrder, cls =>
    let np := indirect curNode
    if np.2 then .ok (some [], cls)
    else
      match np.1 with
      | .vStruct fields =>
        walkLoop fuel ctx .kStruct
          (fields.enum.map (fun p => (p.2.2, FieldKey.fkStr p.2.1, (p.1 : Int)))) cls []
      | .vMap entries =>
        walkLoop fuel ctx .kMap
          (entries.map (fun p => (p.2, FieldKey.fkVal p.1, (-1 : Int)))) cls []
      | .vArr elems =>
        let items := elems.enum.map (fun p => (p.2, FieldKey.fkStr "", (p.1 : Int)))
        walkLoop fuel ctx .kArray (if reverseOrder then items.reverse else items) cls []
      | .vBool _ | .vInt _ | .vUint _ | .vFloat _ | .vStr _ => .ok (some [], cls)
      | .vNull => .error (.panicErr "unsupported kind of child", cls)

/-- Child loop of walkChildren (the withChildDo closure applied along the
enumeration, with the existence only early return after every child). -/
def walkLoop : Nat → qryExecContext → GoKind → List (RValue × FieldKey × Int) →
    SelClosure → List RValue → Except (ExecErr × SelClosure) (RSet × SelClosure)
  | 0, _, _, _, cls, _ => .error (.outOfFuel, cls)
  | _ + 1, _, _, [], cls, results => .ok (some results, cls)
  | fuel + 1, ctx, parentKind, (child, fieldKey, index) :: rest, cls, results =>
    match withChildSelect fuel ctx cls parentKind child fieldKey index with
    | .error e => .error (e, cls)
    | .ok sel =>
      match (if sel.1 then doWithSelected fuel ctx child else doWithNotSelected fuel ctx child) with
      | .error e => .error (e, sel.2)
      | .ok childResults =>
        let results2 :=
          if childResults.isSome ∧ (childResults.getD []).length > 0 then
            results ++ childResults.getD []
          else results
        if ctx.evalExistenceOnly ∧ results2.length > 0 then .ok (some results2, sel.2)
        else walkLoop fuel ctx parentKind rest sel.2 results2

/-- Selector evaluation closures (the selFct arguments built in the source),
dispatched on the closure state. -/
def withChildSelect : Nat → qryExecContext → SelClosure → GoKind → RValue → FieldKey →
    Int → Except ExecErr (Bool × SelClosure)
  | 0, _, _, _, _, _, _ => .error .outOfFuel
  | fuel + 1, ctx, cls, parentKind, child, fieldKey, index =>
    match cls with
    | .wildcardF => .ok (true, cls)
    | .nameF nm mk =>
      match parentKind with
      | .kMap =>
        match fieldKey with
        | .fkStr s =>
          let selected := decide (s = nm)
          .ok (selected, .nameF nm (mk && !selected))
        | .fkVal kv =>
          let fp := indirect kv
          match fp.2, fp.1 with
          | false, .vStr s =>
            let selected := decide (s = nm)
            .ok (selected, .nameF nm (mk && !selected))
          | _, _ => .ok (false, cls)
      | .kStruct =>
        match fieldKey with
        | .fkStr s =>
          let selected := decide (s = nm)
          .ok (selected, .nameF nm (mk && !selected))
        | .fkVal _ => .error (.panicErr "fieldKey cast")
      | _ => .ok (false, cls)
    | .indexF selIndex =>
      match parentKind with
      | .kArray => .ok (decide (index = selIndex), cls)
      | _ => .ok (false, cls)
    | .sliceF sliceEnd stepDir sliceStep nextSliceIndex =>
      match parentKind with
      | .kArray | .kString =>
        if index = nextSliceIndex ∧
            (stepDir > 0 ∧ nextSliceIndex < sliceEnd ∨ stepDir < 0 ∧ nextSliceIndex > sliceEnd) then
          .ok (true, .sliceF sliceEnd stepDir sliceStep (nextSliceIndex + sliceStep))
        else .ok (false, cls)
      | _ => .error (.panicErr "only array expected")
    | .sliceNonArrayF =>
      match parentKind with
      | .kArray | .kString => .error (.panicErr "NOT expected array")
      | _ => .ok (false, cls)
    | .filterF expr =>
      match evalBoolSingularOrExistenceExpr fuel ctx child expr with
      | .error e => .error e
      | .ok none => .ok (false, cls)
      | .ok (some none) => .ok (false, cls)
      | .ok (some (some (.svBool b))) => .ok (b, cls)
      | .ok (some (some _)) => .error (.panicErr "bool cast")

/-- Embedding of evalExpr. -/
def evalExpr : Nat → qryExecContext → RValue → FilterExpr →
    Except ExecErr (Option QueryResult)
  | 0, _, _, _ => .error .outOfFuel
  | fuel + 1, ctx, curNode, expr =>
    match expr with
    | .logicalExpr left right op =>
      match evalLogicalExpr fuel ctx curNode left right op with
      | .error e => .error e
      | .ok v => .ok (some (.singular (some v)))
    | .compareExpr left right op =>
      match evalCompareExpr fuel ctx curNode left right op with
      | .error e => .error e
      | .ok v => .ok (some (.singular (some v)))
    | .filterQry exOnly parser => evalFilterQryExpr fuel ctx curNode exOnly parser
    | .functionExpr fct args => evalFunctionExpr fuel ctx curNode fct args
    | .parenExpr inner => evalExpr fuel ctx curNode inner
    | .stringLiteral s => .ok (some (.singular (some (.svStr s))))
    | .boolLiteral b => .ok (some (.singular (some (.svBool b))))
    | .nullLiteral => .ok (some (.singular none))
    | .intLiteral i => .ok (some (.singular (some (.svInt i))))
    | .floatLiteral f => .ok (some (.singular (some (.svFloat f))))

/-- Embedding of evalBoolSingularOrExistenceExpr. -/
def evalBoolSingularOrExistenceExpr : Nat → qryExecContext → RValue → FilterExpr →
    Except ExecErr (Option (Option SingVal))
  | 0, _, _, _ => .error .outOfFuel
  | fuel + 1, ctx, curNode, expr =>
    match evalExpr fuel ctx curNode expr with
    | .error e => .error e
    | .ok none => .ok none
    | .ok (some (.resultSet elems)) =>
      .ok (some (some (.svBool (decide ((elems.getD []).length > 0)))))
    | .ok (some (.singular v)) =>
      match v with
      | none => .error (.execution ctx.name "invalid exprResult nil in logical expression")
      | some (.svBool b) => .ok (some (some (.svBool b)))
      | some _ => .error (.execution ctx.name "invalid exprResult type in logical expression")

/-- Embedding of evalLogicalExpr. -/
def evalLogicalExpr : Nat → qryExecContext → RValue → FilterExpr → Option FilterExpr →
    LogicalOp → Except ExecErr SingVal
  | 0, _, _, _, _, _ => .error .outOfFuel
  | fuel + 1, ctx, curNode, left, right, logicalOp =>
    match evalBoolSingularOrExistenceExpr fuel ctx curNode left with
    | .error e => .error e
    | .ok leftVal =>
      match boolOfSingularPtr leftVal with
      | none => .error (.panicErr "nil dereference in logical expression")
      | some l =>
        if logicalOp = .notOp then .ok (.svBool (!l))
        else if ¬ l ∧ logicalOp = .andOp then .ok (.svBool false)
        else if l ∧ logicalOp = .orOp then .ok (.svBool true)
        else
          match right with
          | none => .error (.panicErr "nil right operand")
          | some r =>
            match evalBoolSingularOrExistenceExpr fuel ctx curNode r with
            | .error e => .error e
            | .ok rightVal =>
              match boolOfSingularPtr rightVal with
              | none => .error (.panicErr "nil dereference in logical expression")
              | some rb => .ok (.svBool rb)

/-- Embedding of evalSingularExpr. -/
def evalSingularExpr : Nat → qryExecContext → RValue → FilterExpr →
    Except ExecErr (Option (Option SingVal))
  | 0, _, _, _ => .error .outOfFuel
  | fuel + 1, ctx, curNode, expr =>
    match evalExpr fuel ctx curNode expr with
    | .error e => .error e
    | .ok none => .ok none
    | .ok (some (.resultSet elemsO)) =>
      let elems := elemsO.getD []
      if elems.length > 1 then
        .error (.notSingular "resultSet with multiple elements presented to comparison-expression")
      else
        match elems with
        | [] => .ok none
        | e0 :: _ =>
          let sp := indirect e0
          if sp.2 then .ok (some none)
          else
            match sp.1 with
            | .vBool b => .ok (some (some (.svBool b)))
            | .vInt i => .ok (some (some (.svInt i)))
            | .vUint u => .ok (some (some (.svUint u)))
            | .vFloat f => .ok (some (some (.svFloat f)))
            | .vStr s => .ok (some (some (.svStr s)))
            | .vArr es => .ok (some (some (.svReflect (.vArr es))))
            | .vMap es => .ok (some (some (.svReflect (.vMap es))))
            | .vStruct es => .ok (some (some (.svReflect (.vStruct es))))
            | .vNull => .error (.panicErr "unsupported singular value type")
    | .ok (some (.singular v)) => .ok (some v)

/-- Embedding of evalCompareExpr. -/
def evalCompareExpr : Nat → qryExecContext → RValue → FilterExpr → FilterExpr →
    ComparisonOp → Except ExecErr SingVal
  | 0, _, _, _, _, _ => .error .outOfFuel
  | fuel + 1, ctx, curNode, left, right, op =>
    match evalSingularExpr fuel ctx curNode left with
    | .error e => .error e
    | .ok l =>
      match evalSingularExpr fuel ctx curNode right with
      | .error e => .error e
      | .ok r =>
        match compareValues fuel l r op with
        | some b => .ok (.svBool b)
        | none => .error (.panicErr "comparison panic")

/-- Embedding of evalFunctionExpr. -/
def evalFunctionExpr : Nat → qryExecContext → RValue → String → List FilterExpr →
    Except ExecErr (Option QueryResult)
  | 0, _, _, _, _ => .error .outOfFuel
  | fuel + 1, ctx, curNode, fct, args =>
    match registryLookup ctx.functions fct with
    | none => .error (.execution ctx.name "fct does not exist")
    | some f =>
      match evalArgsLoop fuel ctx curNode args with
      | .error e => .error e
      | .ok argResults => f argResults

/-- Argument loop of evalFunctionExpr. -/
def evalArgsLoop : Nat → qryExecContext → RValue → List FilterExpr →
    Except ExecErr (List (Option QueryResult))
  | 0, _, _, _ => .error .outOfFuel
  | _ + 1, _, _, [] => .ok []
  | fuel + 1, ctx, curNode, a :: rest =>
    match evalExpr fuel ctx curNode a with
    | .error e => .error e
    | .ok aR =>
      match evalArgsLoop fuel ctx curNode rest with
      | .error e => .error e
      | .ok others => .ok (aR :: others)

/-- Embedding of evalFilterQryExpr: a relative sub query inherits the current
tolerance for missing keys, an absolute one keeps the caller supplied
allowMissingKeys. -/
def evalFilterQryExpr : Nat → qryExecContext → RValue → Bool → QueryParserAst →
    Except ExecErr (Option QueryResult)
  | 0, _, _, _, _ => .error .outOfFuel
  | fuel + 1, ctx, curNode, evalExistenceOnly, parser =>
    let allowMissingKeyInFilterQry : Bool :=
      if ¬ ctx.allowMissingKeys ∧ parser.root.symbol = .currentNodeSymbol then
        ctx.areMissingKeysAllowed
      else ctx.allowMissingKeys
    match executeQuery fuel parser ctx.dataRoot curNode evalExistenceOnly
        allowMissingKeyInFilterQry ctx.functions ctx.enableDbgMsgs with
    | .error e => .error e
    | .ok rs => .ok (some (.resultSet rs))

end

/-- Embedding of the builtin count (parsetmpl.go lines 1000 to 1038): defined
only for a ResultSet argument, whose element count it returns; a nil argument
or a ResultSet with a nil Elems slice yield nil without error; any other
QueryResult (a Singular) is an error. -/
def count (args : List (Option QueryResult)) : Except ExecErr (Option QueryResult) :=
  match args with
  | [arg] =>
    match arg with
    | none => .ok none
    | some (.resultSet elemsO) =>
      match elemsO with
      | none => .ok none
      | some rs => .ok (some (.singular (some (.svInt rs.length))))
    | some (.singular _) => .error (.plainErr "count - unsupported type of QueryResult")
  | _ => .error (.plainErr "invalid nr of args to function count")

/-- Embedding of the builtin length: the size of a singular value of string,
array, map or struct type (string lengths counted in runes here). -/
def length (args : List (Option QueryResult)) : Except ExecErr (Option QueryResult) :=
  match args with
  | [arg] =>
    match arg with
    | none => .ok none
    | some (.resultSet rsO) =>
      match rsO.getD [] with
      | [] => .ok none
      | _ :: _ :: _ =>
        .error (.plainErr "cannot extract a singular value from a resultSet with multiple results")
      | [e0] =>
        let sp := indirect e0
        if sp.2 then .ok none
        else
          match sp.1 with
          | .vArr es => .ok (some (.singular (some (.svInt es.length))))
          | .vMap es => .ok (some (.singular (some (.svInt es.length))))
          | .vStr s => .ok (some (.singular (some (.svInt s.length))))
          | .vStruct fs => .ok (some (.singular (some (.svInt fs.length))))
          | _ => .ok none
    | some (.singular vO) =>
      match vO with
      | none => .ok none
      | some (.svStr s) => .ok (some (.singular (some (.svInt s.length))))
      | some (.svReflect rv) =>
        let rp := indirect rv
        if rp.2 then .ok none
        else
          match rp.1 with
          | .vArr es => .ok (some (.singular (some (.svInt es.length))))
          | .vMap es => .ok (some (.singular (some (.svInt es.length))))
          | .vStr s => .ok (some (.singular (some (.svInt s.length))))
          | .vStruct fs => .ok (some (.singular (some (.svInt fs.length))))
          | _ => .ok none
      | some _ => .ok none
  | _ => .error (.plainErr "invalid nr of args to function length")

/-- Embedding of getSingularString (parsetmpl.go lines 943 to 989): reduce a
QueryResult to a single string if possible; nil when undefined, an error only
for a ResultSet holding more than one element.  The successful Singular always
wraps a string, so the result is modelled as an optional string. -/
def getSingularString (r : Option QueryResult) : Except ExecErr (Option String) :=
  match r with
  | none => .ok none
  | some (.resultSet rsO) =>
    match rsO.getD [] with
    | [] => .ok none
    | _ :: _ :: _ =>
      .error (.plainErr "cannot extract singular string from resultSet with multiple results")
    | [e0] =>
      let sp := indirect e0
      if sp.2 then .ok none
      else
        match sp.1 with
        | .vStr s => .ok (some s)
        | _ => .ok none
  | some (.singular vO) =>
    match vO with
    | some (.svStr s) => .ok (some s)
    | some (.svReflect rv) =>
      match rv with
      | .vStr s => .ok (some s)
      | _ => .ok none
    | _ => .ok none

/-- Embedding of the builtin match (parsetmpl.go lines 1109 to 1134): both
arguments are reduced to singular strings, a failure to reduce yields nil
without error, and the pattern is anchored before compilation.  The host
regexp engine is a parameter: compileRx models regexp.Compile, with a
compiled regexp modelled by its MatchString function. -/
def matchFct (compileRx : String → Except String (String → Bool))
    (args : List (Option QueryResult)) : Except ExecErr (Option QueryResult) :=
  match args with
  | [a0, a1] =>
    match getSingularString a0 with
    | .error e => .error e
    | .ok matchTarget =>
      match getSingularString a1 with
      | .error e => .error e
      | .ok pattern =>
        match matchTarget, pattern with
        | some mts, some rxs =>
          match compileRx ("\\A(?:" ++ rxs ++ ")\\z") with
          | .error msg => .error (.plainErr msg)
          | .ok re => .ok (some (.singular (some (.svBool (re mts)))))
        | _, _ => .ok none
  | _ => .error (.plainErr "invalid nr of args to function match")

/-- Embedding of the builtin search: like match but with the pattern compiled
unanchored. -/
def search (compileRx : String → Except String (String → Bool))
    (args : List (Option QueryResult)) : Except ExecErr (Option QueryResult) :=
  match args with
  | [a0, a1] =>
    match getSingularString a0 with
    | .error e => .error e
    | .ok matchTarget =>
      match getSingularString a1 with
      | .error e => .error e
      | .ok pattern =>
        match matchTarget, pattern with
        | some mts, some rxs =>
          match compileRx rxs with
          | .error msg => .error (.plainErr msg)
          | .ok re => .ok (some (.singular (some (.svBool (re mts)))))
        | _, _ => .ok none
  | _ => .error (.plainErr "invalid nr of args to function match")

/-- Embedding of newFunctionRegistry, parameterized by the regexp engine. -/
def newFunctionRegistry (compileRx : String → Except String (String → Bool)) :
    FunctionRegistry :=
  [("count", count), ("length", length), ("match", matchFct compileRx),
   ("search", search compileRx)]

/-- Lexer state, the embedding of innerParser.  Positions count runes instead
of bytes (each list element is one decoded rune), which only affects the
offsets stored in error values. -/
structure PState where
  input : List Char
  start : Nat
  pos : Nat
  subQryCnt : Nat
deriving Repr

def PState.remaining (st : PState) : List Char :=
  st.input.drop st.pos

/-- Embedding of innerParser.peek (none is the eof sentinel). -/
def peekP (st : PState) : Option Char :=
  st.remaining.head?

/-- Embedding of innerParser.next. -/
def nextP (st : PState) : Option Char × PState :=
  match st.remaining.head? with
  | none => (none, st)
  | some c => (some c, { st with pos := st.pos + 1 })

/-- Embedding of innerParser.consume: the text between the mark and the
current position, advancing the mark. -/
def consumeP (st : PState) : List Char × PState :=
  ((st.input.drop st.start).take (st.pos - st.start), { st with start := st.pos })

/-- Embedding of innerParser.consumeNext. -/
def consumeNextP (st : PState) : Option Char × PState :=
  let n := nextP st
  (n.1, { n.2 with start := n.2.pos })

def isWsChar (c : Char) : Bool :=
  c = ' ' ∨ c = '\t' ∨ c = '\n' ∨ c = '\r'

def countWs (l : List Char) : Nat :=
  (l.takeWhile isWsChar).length

/-- Embedding of innerParser.peekConsumingAllWhitespaces. -/
def peekConsumingAllWhitespacesP (st : PState) : Option Char × PState :=
  let k := countWs st.remaining
  if k = 0 then (peekP st, st)
  else
    let st1 : PState := { st with pos := st.pos + k, start := st.pos + k }
    (peekP st1, st1)

/-- Embedding of innerParser.nextSkippingAllWhitespaces. -/
def nextSkippingAllWhitespacesP (st : PState) : Option Char × PState :=
  let k := countWs st.remaining
  let st1 : PState :=
    if k = 0 then st else { st with pos := st.pos + k, start := st.pos + k }
  nextP st1

/-- Embedding of isAlphaNumeric (strutils.go); the source uses the full
unicode letter and digit classes, the model their ASCII restriction, which is
all the claims exercise. -/
def isAlphaNumeric (c : Char) : Bool :=
  c = '_' ∨ c.isAlpha ∨ c.isDigit

def hexDigitVal (c : Char) : Option Nat :=
  if '0' ≤ c ∧ c ≤ '9' then some (c.toNat - 48)
  else if 'a' ≤ c ∧ c ≤ 'f' then some (c.toNat - 87)
  else if 'A' ≤ c ∧ c ≤ 'F' then some (c.toNat - 55)
  else none

def isHexDigit (c : Char) : Bool :=
  (hexDigitVal c).isSome

def hexList (cs : List Char) : Option Nat :=
  cs.foldl
    (fun acc c =>
      match acc, hexDigitVal c with
      | some a, some v => some (a * 16 + v)
      | _, _ => none)
    (some 0)

def validRune (n : Nat) : Bool :=
  n < 0xD800 ∨ (0xDFFF < n ∧ n ≤ 0x10FFFF)

def isOctalDigit (c : Char) : Bool :=
  '0' ≤ c ∧ c ≤ '7'

/-- Model of the strconv.UnquoteChar loop of UnquoteExtend (strutils.go): the
escape sequences of the Go language, with the quote character itself only
escapable when it is the delimiter.  A bare quote character equal to the
delimiter is a syntax error; \x escapes below 0x80 stand for single bytes in
the source and are modelled as code points. -/
def unquoteLoop (quote : Char) : List Char → Except String (List Char)
  | [] => .ok []
  | c :: rest =>
    if c = quote then .error "unquote: unescaped quote"
    else if c ≠ '\\' then (unquoteLoop quote rest).map (c :: ·)
    else
      match rest with
      | 'a' :: r2 => (unquoteLoop quote r2).map ('\x07' :: ·)
      | 'b' :: r2 => (unquoteLoop quote r2).map ('\x08' :: ·)
      | 'f' :: r2 => (unquoteLoop quote r2).map ('\x0c' :: ·)
      | 'n' :: r2 => (unquoteLoop quote r2).map ('\n' :: ·)
      | 'r' :: r2 => (unquoteLoop quote r2).map ('\r' :: ·)
      | 't' :: r2 => (unquoteLoop quote r2).map ('\t' :: ·)
      | 'v' :: r2 => (unquoteLoop quote r2).map ('\x0b' :: ·)
      | '\\' :: r2 => (unquoteLoop quote r2).map ('\\' :: ·)
      | '\'' :: r2 =>
        if quote = '\'' then (unquoteLoop quote r2).map ('\'' :: ·)
        else .error "unquote: quote escape mismatch"
      | '"' :: r2 =>
        if quote = '"' then (unquoteLoop quote r2).map ('"' :: ·)
        else .error "unquote: quote escape mismatch"
      | 'x' :: h1 :: h2 :: r2 =>
        (match hexList [h1, h2] with
         | some v => (unquoteLoop quote r2).map (Char.ofNat v :: ·)
         | none => .error "unquote: invalid hex escape")
      | 'u' :: h1 :: h2 :: h3 :: h4 :: r2 =>
        (match hexList [h1, h2, h3, h4] with
         | some v =>
           if validRune v then (unquoteLoop quote r2).map (Char.ofNat v :: ·)
           else .error "unquote: invalid rune"
         | none => .error "unquote: invalid hex escape")
      | 'U' :: h1 :: h2 :: h3 :: h4 :: h5 :: h6 :: h7 :: h8 :: r2 =>
        (match hexList [h1, h2, h3, h4, h5, h6, h7, h8] with
         | some v =>
           if validRune v then (unquoteLoop quote r2).map (Char.ofNat v :: ·)
           else .error "unquote: invalid rune"
         | none => .error "unquote: invalid hex escape")
      | c0 :: c1 :: c2 :: r2 =>
        if isOctalDigit c0 ∧ isOctalDigit c1 ∧ isOctalDigit c2 then
          let v := (c0.toNat - 48) * 64 + (c1.toNat - 48) * 8 + (c2.toNat - 48)
          if v ≤ 255 then (unquoteLoop quote r2).map (Char.ofNat v :: ·)
          else .error "unquote: octal value over 255"
        else .error "unquote: unknown escape"
      | _ => .error "unquote: unknown escape"

/-- Embedding of UnquoteExtend (strutils.go), which the lexer calls as
unquoteExtend: strip the matching single or double quotes and undo the escape
sequences; without backslashes and inner quote characters the inner text is
returned as is. -/
def unquoteExtend (s : String) : Except String String :=
  let cs := s.data
  let n := cs.length
  if n < 2 then .error "quoted str too short"
  else
    match cs.head?, cs.getLast? with
    | some q, some lastC =>
      if q ≠ lastC then .error "start quote not matching end quote"
      else if q ≠ '"' ∧ q ≠ '\'' then .error "expected single or double quotes"
      else
        let inner := (cs.drop 1).take (n - 2)
        if ¬ inner.contains '\\' ∧ ¬ inner.contains q then .ok (String.mk inner)
        else
          match unquoteLoop q inner with
          | .error e => .error e
          | .ok out => .ok (String.mk out)
    | _, _ => .error "quoted str too short"

/-- Scan of the quoted region by the parseQuote loop (part_003 lines 131 to
171): returns the number of runes up to and including the closing quote.  A
backslash may be followed by a backslash, a slash, the delimiter, a literal
backspace, carriage return or form feed character, or by the letter u or U
with four following hex digits; a backslash before a newline is an error, any
other escaped character is an error, and any other unescaped character
(including a literal newline) is passed over. -/
def parseQuoteScan (q : Char) : List Char → Except String Nat
  | [] => .error "unterminated quoted string"
  | '\\' :: rest =>
    (match rest with
     | [] => .error "unexpected escaping of char"
     | r :: rest2 =>
       if r = '\n' then .error "newline not supported in quoted strings"
       else if r = '\\' ∨ r = '/' ∨ r = q ∨ r = '\x08' ∨ r = '\r' ∨ r = '\x0c' then
         match parseQuoteScan q rest2 with
         | .error e => .error e
         | .ok n => .ok (n + 2)
       else if r = 'U' ∨ r = 'u' then
         match rest2 with
         | h1 :: h2 :: h3 :: h4 :: rest6 =>
           if isHexDigit h1 ∧ isHexDigit h2 ∧ isHexDigit h3 ∧ isHexDigit h4 then
             match parseQuoteScan q rest6 with
             | .error e => .error e
             | .ok n => .ok (n + 6)
           else .error "unexpected char/len of unicode hex value"
         | _ => .error "unexpected char/len of unicode hex value"
       else .error "unexpected escaping of char")
  | c :: rest =>
    if c = q then .ok 1
    else
      match parseQuoteScan q rest with
      | .error e => .error e
      | .ok n => .ok (n + 1)

/-- Embedding of innerParser.parseQuote: take the delimiter, scan the quoted
region, consume it and unquote it through unquoteExtend. -/
def parseQuote (st : PState) : Except String (String × PState) :=
  match nextP st with
  | (none, _) => .error "unterminated quoted string"
  | (some q, st1) =>
    match parseQuoteScan q st1.remaining with
    | .error e => .error e
    | .ok n =>
      let st2 : PState := { st1 with pos := st1.pos + n }
      let v := consumeP st2
      match unquoteExtend (String.mk v.1) with
      | .error e => .error e
      | .ok s => .ok (s, v.2)

/-- Embedding of innerParser.parseInteger: optional sign, digits, parsed with
a 32 bit bound. -/
def parseInteger (st : PState) : Except String (Int × PState) :=
  let pk := peekConsumingAllWhitespacesP st
  match pk.1 with
  | some r =>
    if r = '-' ∨ r = '+' ∨ r.isDigit then
      let st1 := (nextP pk.2).2
      let k := (st1.remaining.takeWhile (·.isDigit)).length
      let st2 : PState := { st1 with pos := st1.pos + k }
      let v := consumeP st2
      match goParseIntBits 32 (String.mk v.1) with
      | none => .error "invalid integer"
      | some i => .ok (i, v.2)
    else .error "unexpected char in number"
  | none => .error "unexpected char in number"

/-- Character scan of parseAlphaNumeric: alphanumerics and underscore, with a
backslash rejected at any position. -/
def alphaNumScan : List Char → Except String Nat
  | [] => .ok 0
  | c :: rest =>
    if c = '\\' then .error "escaping not allowed in unquoted name-selectors"
    else if isAlphaNumeric c then (alphaNumScan rest).map (· + 1)
    else .ok 0

/-- Embedding of queryParser.parseAlphaNumeric at the lexer level. -/
def parseAlphaNumericP (st : PState) : Except String (String × PState) :=
  match alphaNumScan st.remaining with
  | .error e => .error e
  | .ok n =>
    let st1 : PState := { st with pos := st.pos + n }
    let v := consumeP st1
    .ok (String.mk v.1, v.2)

/-- Embedding of SyntaxError (the caret rendering of Error is presentation
only and not modelled). -/
structure SyntaxError where
  parserName : String
  msg : String
  input : String
  pos : Nat
deriving DecidableEq, Repr

/-- Embedding of newFilterSelector: unwrap a top level Paren and mark a bare
filter query as existence only. -/
def newFilterSelector (expr : FilterExpr) : Selector :=
  let fe : FilterExpr :=
    match expr with
    | .parenExpr inner => inner
    | e => e
  match fe with
  | .filterQry _ p => .filterSelector (.filterQry true p)
  | e => .filterSelector e

/-- Existence adjustment of newLogicalExpr: a filter query operand, possibly
under one Paren, becomes existence only. -/
def adjustLogicalOperand : FilterExpr → FilterExpr
  | .filterQry _ p => .filterQry true p
  | .parenExpr (.filterQry _ p) => .parenExpr (.filterQry true p)
  | e => e

/-- Embedding of newLogicalExpr. -/
def newLogicalExpr (left : FilterExpr) (right : Option FilterExpr) (op : LogicalOp) :
    FilterExpr :=
  .logicalExpr (adjustLogicalOperand left)
    (if op ≠ .notOp then right.map adjustLogicalOperand else right) op

/-- Operand adjustment of newCompareExpr: a bare filter query is marked for
value materialization, a parenthesised one stays existence only, a nested
comparison is rejected, and a logical operand is an internal panic of the
source, modelled as an error. -/
def adjustCompareOperand : FilterExpr → Except String FilterExpr
  | .filterQry _ p => .ok (.filterQry false p)
  | .parenExpr (.filterQry _ p) => .ok (.parenExpr (.filterQry true p))
  | .compareExpr _ _ _ => .error "cascading comparisons not allowed"
  | .logicalExpr _ _ _ => .error "internal error - logical expression as comparison operand"
  | e => .ok e

/-- Embedding of newCompareExpr. -/
def newCompareExpr (left right : FilterExpr) (op : ComparisonOp) :
    Except String FilterExpr :=
  match adjustCompareOperand left with
  | .error e => .error e
  | .ok l =>
    match adjustCompareOperand right with
    | .error e => .error e
    | .ok r => .ok (.compareExpr l r op)

/-- Embedding of newParenExpr: redundant parentheses are elided. -/
def newParenExpr (expr : FilterExpr) : FilterExpr :=
  match expr with
  | .parenExpr _ | .functionExpr _ _ | .stringLiteral _ | .intLiteral _
  | .floatLiteral _ | .boolLiteral _ | .nullLiteral => expr
  | .filterQry _ _ | .compareExpr _ _ _ | .logicalExpr _ _ _ => .parenExpr expr

/-- Embedding of newFunctionExpr: a Paren directly around an argument is
elided. -/
def newFunctionExpr (fct : String) (args : List FilterExpr) : FilterExpr :=
  .functionExpr fct
    (args.map fun a =>
      match a with
      | .parenExpr inner => inner
      | e => e)

/-- Conversion of the operator text consumed by parseFilterOpAndRightExpr;
the source casts the consumed string, so a bare exclamation mark flows
through as an (invalid) operator. -/
def comparisonOpOfChars : List Char → ComparisonOp
  | ['=', '='] => .eqOp
  | ['<'] => .ltOp
  | ['<', '='] => .leOp
  | ['>'] => .gtOp
  | ['>', '='] => .geOp
  | ['!', '='] => .neOp
  | _ => .bangOp

/-- Scan of parseNumberLiteral: count of consumed runes together with the
decimal separator and exponent flags. -/
def numScan : List Char → Bool → Bool → Nat × Bool × Bool
  | [], dec, ex => (0, dec, ex)
  | c :: rest, dec, ex =>
    if c = '.' ∧ ¬ dec then
      let r := numScan rest true ex
      (r.1 + 1, r.2.1, r.2.2)
    else if c = 'e' ∧ ¬ ex then
      match rest with
      | s :: rest2 =>
        if s = '-' ∨ s = '+' then
          let r := numScan rest2 dec true
          (r.1 + 2, r.2.1, r.2.2)
        else
          let r := numScan (s :: rest2) dec true
          (r.1 + 1, r.2.1, r.2.2)
      | [] => (1, dec, true)
    else if c.isDigit then
      let r := numScan rest dec ex
      (r.1 + 1, r.2.1, r.2.2)
    else (0, dec, ex)
termination_by l _ _ => l.length
decreasing_by all_goals simp +arith

/-- Embedding of parseNumberLiteral: a float when a decimal separator or
exponent appeared, an integer (with 32 bit bound) otherwise. -/
def parseNumberLiteral (name : String) (st : PState) :
    Except SyntaxError (FilterExpr × PState) :=
  let st1 : PState :=
    match peekP st with
    | some '-' | some '+' => (nextP st).2
    | _ => st
  let scan := numScan st1.remaining false false
  let st2 : PState := { st1 with pos := st1.pos + scan.1 }
  let v := consumeP st2
  if scan.2.1 ∨ scan.2.2 then
    match goParseFloat (String.mk v.1) with
    | none => .error ⟨name, "invalid float", String.mk st.input, v.2.pos⟩
    | some f => .ok (.floatLiteral f, v.2)
  else
    match goParseIntBits 32 (String.mk v.1) with
    | none => .error ⟨name, "invalid integer", String.mk st.input, v.2.pos⟩
    | some i => .ok (.intLiteral i, v.2)

/-- Tail of parseArraySliceValues after the end value: the optional second
colon and step value. -/
def parseArraySliceAfterEnd (name : String) (start endv : OptionalInt) (st : PState) :
    Except SyntaxError (OptionalInt × OptionalInt × Int × PState) :=
  let pk := peekConsumingAllWhitespacesP st
  match pk.1 with
  | some ':' =>
    let st1 := (consumeNextP pk.2).2
    let pk2 := peekConsumingAllWhitespacesP st1
    match pk2.1 with
    | some c =>
      if c = '+' ∨ c = '-' ∨ c.isDigit then
        match parseInteger pk2.2 with
        | .error msg => .error ⟨name, msg, String.mk pk2.2.input, pk2.2.pos⟩
        | .ok (stepVal, st2) => .ok (start, endv, stepVal, st2)
      else .ok (start, endv, 1, pk2.2)
    | none => .ok (start, endv, 1, pk2.2)
  | _ => .ok (start, endv, 1, pk.2)

/-- Embedding of parseArraySliceValues. -/
def parseArraySliceValues (name : String) (start : OptionalInt) (st : PState) :
    Except SyntaxError (OptionalInt × OptionalInt × Int × PState) :=
  let pk := peekConsumingAllWhitespacesP st
  match pk.1 with
  | some c =>
    if c = '+' ∨ c = '-' ∨ c.isDigit then
      match parseInteger pk.2 with
      | .error msg => .error ⟨name, msg, String.mk pk.2.input, pk.2.pos⟩
      | .ok (endVal, st1) => parseArraySliceAfterEnd name start ⟨true, endVal⟩ st1
    else if c = ':' then parseArraySliceAfterEnd name start undefinedOptionalInt pk.2
    else .ok (start, undefinedOptionalInt, 1, pk.2)
  | none => .ok (start, undefinedOptionalInt, 1, pk.2)

/-- Embedding of parseIndexOrArraySliceSelector. -/
def parseIndexOrArraySliceSelector (name : String) (st : PState) :
    Except SyntaxError (Selector × PState) :=
  let pk := peekConsumingAllWhitespacesP st
  match pk.1 with
  | some ':' =>
    let st1 := (consumeNextP pk.2).2
    match parseArraySliceValues name undefinedOptionalInt st1 with
    | .error e => .error e
    | .ok (s, e, k, st2) => .ok (.arraySliceSelector s e k, st2)
  | some c =>
    if c = '-' ∨ c = '+' ∨ c.isDigit then
      match parseInteger pk.2 with
      | .error msg => .error ⟨name, msg, String.mk pk.2.input, pk.2.pos⟩
      | .ok (i, st1) =>
        let pk2 := peekConsumingAllWhitespacesP st1
        match pk2.1 with
        | some ':' =>
          let st2 := (consumeNextP pk2.2).2
          match parseArraySliceValues name ⟨true, i⟩ st2 with
          | .error e => .error e
          | .ok (s, e, k, st3) => .ok (.arraySliceSelector s e k, st3)
        | _ => .ok (.indexSelector i, pk2.2)
    else .error ⟨name, "invalid index/arraySlice selector", String.mk pk.2.input, pk.2.pos⟩
  | none => .error ⟨name, "invalid index/arraySlice selector", String.mk pk.2.input, pk.2.pos⟩

mutual

/-- Embedding of parseInnerQuery: parse the query and compute the singular
flag from the parsed segments. -/
def parseInnerQuery : Nat → String → Bool → PState →
    Except SyntaxError (QueryParserAst × PState)
  | 0, name, _, st => .error ⟨name, "out of fuel", String.mk st.input, st.pos⟩
  | fuel + 1, name, absDefaultContext, st =>
    match parseNodeIdentifier fuel name absDefaultContext st with
    | .error e => .error e
    | .ok (root, st1) => .ok (.mk name root (computeIsSingular root.segments), st1)

/-- Embedding of queryParser.parseNodeIdentifier. -/
def parseNodeIdentifier : Nat → String → Bool → PState →
    Except SyntaxError (NodeIdentifier × PState)
  | 0, name, _, st => .error ⟨name, "out of fuel", String.mk st.input, st.pos⟩
  | fuel + 1, name, absDefaultContext, st =>
    let pk := peekConsumingAllWhitespacesP st
    let symSt : NodeIdentifierSymbol × PState :=
      match pk.1 with
      | some '$' => (.rootNodeSymbol, (consumeNextP pk.2).2)
      | some '@' => (.currentNodeSymbol, (consumeNextP pk.2).2)
      | _ => (if absDefaultContext then .rootNodeSymbol else .currentNodeSymbol, pk.2)
    match parseSegment fuel name [] symSt.2 with
    | .error e => .error e
    | .ok (segs, st2) => .ok (.mk symSt.1 segs, st2)

/-- Embedding of queryParser.parseSegment (the segment loop; it stops at the
first rune that opens no segment, without consuming it). -/
def parseSegment : Nat → String → List SegmentAst → PState →
    Except SyntaxError (List SegmentAst × PState)
  | 0, name, _, st => .error ⟨name, "out of fuel", String.mk st.input, st.pos⟩
  | fuel + 1, name, acc, st =>
    let pk := peekConsumingAllWhitespacesP st
    match pk.1 with
    | some '[' =>
      (match parseSquareSelectors fuel name .childSegmentType pk.2 with
       | .error e => .error e
       | .ok (seg, st1) => parseSegment fuel name (acc ++ [seg]) st1)
    | some '.' =>
      (match parseDot fuel name pk.2 with
       | .error e => .error e
       | .ok (seg, st1) => parseSegment fuel name (acc ++ [seg]) st1)
    | _ => .ok (acc, pk.2)

/-- Embedding of queryParser.parseDot. -/
def parseDot : Nat → String → PState → Except SyntaxError (SegmentAst × PState)
  | 0, name, st => .error ⟨name, "out of fuel", String.mk st.input, st.pos⟩
  | fuel + 1, name, st =>
    let st1 := (consumeNextP st).2
    let dd : SegmentType × PState :=
      match peekP st1 with
      | some '.' => (.descendantSegmentType, (consumeNextP st1).2)
      | _ => (.childSegmentType, st1)
    let segType := dd.1
    let st2 := dd.2
    match peekP st2 with
    | some c =>
      if c = '[' then
        if segType ≠ .descendantSegmentType then
          .error ⟨name, "unexpected opening bracket after single dot", String.mk st2.input, st2.pos⟩
        else parseSquareSelectors fuel name segType st2
      else if c = '*' then .ok (.mk segType [.wildcardSelector], (consumeNextP st2).2)
      else if c = '"' ∨ c = '\'' then
        match parseQuote st2 with
        | .error e => .error ⟨name, e, String.mk st2.input, st2.pos⟩
        | .ok (s, st3) => .ok (.mk segType [.nameSelector s], st3)
      else if isAlphaNumeric c then
        match parseAlphaNumericP st2 with
        | .error e => .error ⟨name, e, String.mk st2.input, st2.pos⟩
        | .ok (s, st3) => .ok (.mk segType [.nameSelector s], st3)
      else .error ⟨name, "no valid selector found after first dot", String.mk st2.input, st2.pos⟩
    | none => .error ⟨name, "no valid selector found after first dot", String.mk st2.input, st2.pos⟩

/-- Embedding of queryParser.parseSquareSelectors (the unwrapByDelimiters
helper is inlined: left bracket, whitespace, selector list, whitespace, right
bracket). -/
def parseSquareSelectors : Nat → String → SegmentType → PState →
    Except SyntaxError (SegmentAst × PState)
  | 0, name, _, st => .error ⟨name, "out of fuel", String.mk st.input, st.pos⟩
  | fuel + 1, name, segType, st =>
    let c1 := consumeNextP st
    if c1.1 ≠ some '[' then
      .error ⟨name, "expected left delimiter", String.mk st.input, c1.2.pos⟩
    else
      let pk := peekConsumingAllWhitespacesP c1.2
      match parseSelectorList fuel name [] pk.2 with
      | .error e => .error e
      | .ok (sels, st2) =>
        let nx := nextSkippingAllWhitespacesP st2
        if nx.1 ≠ some ']' then
          .error ⟨name, "expected right delimiter", String.mk st2.input, nx.2.pos⟩
        else .ok (.mk segType sels, (consumeP nx.2).2)

/-- Selector list loop of parseSquareSelectors. -/
def parseSelectorList : Nat → String → List Selector → PState →
    Except SyntaxError (List Selector × PState)
  | 0, name, _, st => .error ⟨name, "out of fuel", String.mk st.input, st.pos⟩
  | fuel + 1, name, acc, st =>
    match parseSelector fuel name st with
    | .error e => .error e
    | .ok (sel, st1) =>
      let pk := peekConsumingAllWhitespacesP st1
      match pk.1 with
      | some ',' => parseSelectorList fuel name (acc ++ [sel]) (consumeNextP pk.2).2
      | _ => .ok (acc ++ [sel], pk.2)

/-- Embedding of queryParser.parseSelector. -/
def parseSelector : Nat → String → PState → Except SyntaxError (Selector × PState)
  | 0, name, st => .error ⟨name, "out of fuel", String.mk st.input, st.pos⟩
  | fuel + 1, name, st =>
    let pk := peekConsumingAllWhitespacesP st
    match pk.1 with
    | some c =>
      if c = '"' ∨ c = '\'' then
        match parseQuote pk.2 with
        | .error e => .error ⟨name, e, String.mk pk.2.input, pk.2.pos⟩
        | .ok (s, st1) => .ok (.nameSelector s, st1)
      else if c = '*' then .ok (.wildcardSelector, (consumeNextP pk.2).2)
      else if c = '+' ∨ c = '-' ∨ c.isDigit ∨ c = ':' then
        parseIndexOrArraySliceSelector name pk.2
      else if c = '?' then
        let st1 := (consumeNextP pk.2).2
        match parseFilterExpressions fuel name st1 with
        | .error e => .error e
        | .ok (expr, st2) => .ok (newFilterSelector expr, st2)
      else if isAlphaNumeric c then
        match parseAlphaNumericP pk.2 with
        | .error e => .error ⟨name, e, String.mk pk.2.input, pk.2.pos⟩
        | .ok (s, st1) => .ok (.nameSelector s, st1)
      else .error ⟨name, "no valid selector detected", String.mk pk.2.input, pk.2.pos⟩
    | none => .error ⟨name, "no valid selector detected", String.mk pk.2.input, pk.2.pos⟩

/-- Embedding of queryParser.parseFilterExpressions. -/
def parseFilterExpressions : Nat → String → PState →
    Except SyntaxError (FilterExpr × PState)
  | 0, name, st => .error ⟨name, "out of fuel", String.mk st.input, st.pos⟩
  | fuel + 1, name, st =>
    let pk := peekConsumingAllWhitespacesP st
    match pk.1 with
    | some '!' =>
      let st1 := (consumeNextP pk.2).2
      (match parseFilterExpr fuel name st1 with
       | .error e => .error e
       | .ok (e1, st2) => parseFilterOpAndRightExpr fuel name (newLogicalExpr e1 none .notOp) st2)
    | _ =>
      match parseFilterExpr fuel name pk.2 with
      | .error e => .error e
      | .ok (e1, st2) => parseFilterOpAndRightExpr fuel name e1 st2

/-- Embedding of queryParser.parseFilterOpAndRightExpr, including the
rebalancing that makes the and operator bind tighter than the or operator. -/
def parseFilterOpAndRightExpr : Nat → String → FilterExpr → PState →
    Except SyntaxError (FilterExpr × PState)
  | 0, name, _, st => .error ⟨name, "out of fuel", String.mk st.input, st.pos⟩
  | fuel + 1, name, leftExpr, st =>
    let pk := peekConsumingAllWhitespacesP st
    match pk.1 with
    | some c =>
      if c = '<' ∨ c = '=' ∨ c = '>' ∨ c = '!' then
        let st1 := (nextP pk.2).2
        let opSt : Except SyntaxError PState :=
          if peekP st1 = some '=' then .ok (nextP st1).2
          else if c = '=' then
            .error ⟨name, "invalid compare-operator - single equals", String.mk st1.input, st1.pos⟩
          else .ok st1
        match opSt with
        | .error e => .error e
        | .ok st2 =>
          let v := consumeP st2
          let op := comparisonOpOfChars v.1
          match parseFilterExpr fuel name v.2 with
          | .error e => .error e
          | .ok (rightExpr, st3) =>
            match leftExpr with
            | .logicalExpr _ _ _ =>
              .error ⟨name, "internal error - greedy after logical expression", String.mk st3.input, st3.pos⟩
            | _ =>
              match newCompareExpr leftExpr rightExpr op with
              | .error msg => .error ⟨name, msg, String.mk st3.input, st3.pos⟩
              | .ok expr => parseFilterOpAndRightExpr fuel name expr st3
      else if c = '&' ∨ c = '|' then
        let st1 := (nextP pk.2).2
        if peekP st1 = some c then
          let v := consumeP (nextP st1).2
          let lop : LogicalOp := if c = '&' then .andOp else .orOp
          match parseFilterExpressions fuel name v.2 with
          | .error e => .error e
          | .ok (rightExpr, st3) =>
            let expr : FilterExpr :=
              if lop = .andOp then
                match leftExpr, rightExpr with
                | .logicalExpr pl prO .orOp, _ =>
                  newLogicalExpr pl (some (newLogicalExpr (prO.getD .nullLiteral) (some rightExpr) .andOp)) .orOp
                | _, .logicalExpr fl flO .orOp =>
                  newLogicalExpr (newLogicalExpr leftExpr (some fl) .andOp) flO .orOp
                | _, _ => newLogicalExpr leftExpr (some rightExpr) lop
              else newLogicalExpr leftExpr (some rightExpr) lop
            parseFilterOpAndRightExpr fuel name expr st3
        else .error ⟨name, "invalid logical operator", String.mk st1.input, st1.pos⟩
      else .ok (leftExpr, pk.2)
    | none => .ok (leftExpr, pk.2)

/-- Embedding of queryParser.parseFilterExpr. -/
def parseFilterExpr : Nat → String → PState → Except SyntaxError (FilterExpr × PState)
  | 0, name, st => .error ⟨name, "out of fuel", String.mk st.input, st.pos⟩
  | fuel + 1, name, st =>
    let pk := peekConsumingAllWhitespacesP st
    match pk.1 with
    | some c =>
      if c = '@' ∨ c = '$' ∨ c = '.' ∨ c = '[' then parseFilterQryExpr fuel name pk.2
      else if c = '(' then
        match parseParenthesisExpr fuel name false pk.2 with
        | .error e => .error e
        | .ok (exprs, st1) =>
          match exprs with
          | [e1] => .ok (e1, st1)
          | _ =>
            .error ⟨name, "only a single expression can be contained within expression parenthesis",
              String.mk st1.input, st1.pos⟩
      else parseTextExpr fuel name pk.2
    | none => parseTextExpr fuel name pk.2

/-- Embedding of queryParser.parseParenthesisExpr (unwrapByDelimiters
inlined). -/
def parseParenthesisExpr : Nat → String → Bool → PState →
    Except SyntaxError (List FilterExpr × PState)
  | 0, name, _, st => .error ⟨name, "out of fuel", String.mk st.input, st.pos⟩
  | fuel + 1, name, allowMultiple, st =>
    let c1 := consumeNextP st
    if c1.1 ≠ some '(' then
      .error ⟨name, "expected left delimiter", String.mk st.input, c1.2.pos⟩
    else
      let pk := peekConsumingAllWhitespacesP c1.2
      match parseParenInner fuel name allowMultiple [] pk.2 with
      | .error e => .error e
      | .ok (results, st2) =>
        let nx := nextSkippingAllWhitespacesP st2
        if nx.1 ≠ some ')' then
          .error ⟨name, "expected right delimiter", String.mk st2.input, nx.2.pos⟩
        else .ok (results, (consumeP nx.2).2)

/-- Inner loop of parseParenthesisExpr: one expression when allowMultiple is
false (wrapped in a Paren), a comma separated list otherwise. -/
def parseParenInner : Nat → String → Bool → List FilterExpr → PState →
    Except SyntaxError (List FilterExpr × PState)
  | 0, name, _, _, st => .error ⟨name, "out of fuel", String.mk st.input, st.pos⟩
  | fuel + 1, name, allowMultiple, acc, st =>
    match parseFilterExpressions fuel name st with
    | .error e => .error e
    | .ok (expr, st1) =>
      if allowMultiple then
        let pk := peekConsumingAllWhitespacesP st1
        match pk.1 with
        | some ',' => parseParenInner fuel name allowMultiple (acc ++ [expr]) (consumeNextP pk.2).2
        | some ')' => .ok (acc ++ [expr], pk.2)
        | _ =>
          .error ⟨name, "invalid syntax - comma or closing parenthesis expected",
            String.mk pk.2.input, pk.2.pos⟩
      else .ok ([newParenExpr expr], st1)

/-- Embedding of queryParser.parseTextExpr. -/
def parseTextExpr : Nat → String → PState → Except SyntaxError (FilterExpr × PState)
  | 0, name, st => .error ⟨name, "out of fuel", String.mk st.input, st.pos⟩
  | fuel + 1, name, st =>
    let pk := peekConsumingAllWhitespacesP st
    match pk.1 with
    | some c =>
      if c = '"' ∨ c = '\'' then
        match parseQuote pk.2 with
        | .error e => .error ⟨name, e, String.mk pk.2.input, pk.2.pos⟩
        | .ok (s, st1) => .ok (.stringLiteral s, st1)
      else if c.isDigit ∨ c = '-' ∨ c = '+' then parseNumberLiteral name pk.2
      else if isAlphaNumeric c then
        match parseAlphaNumericP pk.2 with
        | .error e => .error ⟨name, e, String.mk pk.2.input, pk.2.pos⟩
        | .ok (s, st1) =>
          if s = "true" ∨ s = "false" then .ok (.boolLiteral (s = "true"), st1)
          else if s = "null" then .ok (.nullLiteral, st1)
          else
            match parseParenthesisExpr fuel name true st1 with
            | .error e => .error e
            | .ok (exprs, st2) => .ok (newFunctionExpr s exprs, st2)
      else .error ⟨name, "unexpected char", String.mk pk.2.input, pk.2.pos⟩
    | none => .error ⟨name, "unexpected char", String.mk pk.2.input, pk.2.pos⟩

/-- Embedding of queryParser.parseFilterQryExpr: bump the shared sub query
counter and parse an inner query with relative default context. -/
def parseFilterQryExpr : Nat → String → PState → Except SyntaxError (FilterExpr × PState)
  | 0, name, st => .error ⟨name, "out of fuel", String.mk st.input, st.pos⟩
  | fuel + 1, _name, st =>
    let st1 : PState := { st with subQryCnt := st.subQryCnt + 1 }
    match parseInnerQuery fuel ("filterQry-" ++ toString (st1.subQryCnt - 1)) false st1 with
    | .error e => .error e
    | .ok (p, st2) => .ok (.filterQry false p, st2)

end

/-- Embedding of queryParser.parse through newQueryParser: rejects the empty
query, otherwise parses from a fresh cursor.  The isSingular flag of the
returned parser is the false set by newQueryParser: this entry point never
recomputes it. -/
def queryParserParse (fuel : Nat) (query : String) : Except SyntaxError QueryParserAst :=
  let name := "JSONPathQry"
  if query.data.length ≤ 0 then
    .error ⟨name, "invalid query - empty", query, 0⟩
  else
    match parseNodeIdentifier fuel name true ⟨query.data, 0, 0, 0⟩ with
    | .error e => .error e
    | .ok (root, _) => .ok (.mk name root false)

def boolString (b : Bool) : String :=
  if b then "true" else "false"

def hexDigitChar (n : Nat) : Char :=
  if n < 10 then Char.ofNat (48 + n) else Char.ofNat (87 + n % 6)

/-- Model of strconv.Quote for one character: Go named escapes, the quote and
backslash escapes, printable characters kept as is (every rune at or above
0x20 other than the quote and the backslash is treated as printable, a
simplification of the IsPrint classes), and remaining control characters as
two digit hex escapes. -/
def goQuoteChar (c : Char) : String :=
  if c = '"' then "\\\""
  else if c = '\\' then "\\\\"
  else if c = '\x07' then "\\a"
  else if c = '\x08' then "\\b"
  else if c = '\x0c' then "\\f"
  else if c = '\n' then "\\n"
  else if c = '\r' then "\\r"
  else if c = '\t' then "\\t"
  else if c = '\x0b' then "\\v"
  else if c.toNat < 32 then
    String.mk ['\\', 'x', hexDigitChar (c.toNat / 16), hexDigitChar (c.toNat % 16)]
  else String.mk [c]

/-- Model of strconv.Quote. -/
def goQuote (s : String) : String :=
  "\"" ++ s.data.foldr (fun c acc => goQuoteChar c ++ acc) "" ++ "\""

def comparisonOpString : ComparisonOp → String
  | .eqOp => "=="
  | .neOp => "!="
  | .ltOp => "<"
  | .gtOp => ">"
  | .leOp => "<="
  | .geOp => ">="
  | .bangOp => "!"

def logicalOpString : LogicalOp → String
  | .andOp => "&&"
  | .orOp => "||"
  | .notOp => "!"

/-- Stand in for the percent e float formatting of floatLiteral.string; the
exact float64 rendering is not representable on rationals and no claim
depends on it. -/
def floatEString (f : Rat) : String :=
  toString f

mutual

/-- Embedding of the selector string methods (parsetmpl.go). -/
def selectorString : Selector → String
  | .wildcardSelector => "*"
  | .nameSelector n => goQuote n
  | .indexSelector i => toString i
  | .arraySliceSelector start stop step =>
    (if start.isDefined then toString start.intValue else "") ++ ":" ++
      (if stop.isDefined then toString stop.intValue else "") ++ ":" ++ toString step
  | .filterSelector e => "?" ++ filterExprString e

/-- Comma separated selector list of segmentImpl.string. -/
def selectorListString : List Selector → String
  | [] => ""
  | [s] => selectorString s
  | s :: rest => selectorString s ++ "," ++ selectorListString rest

/-- Embedding of segmentImpl.string. -/
def segmentString : SegmentAst → String
  | .mk t sels =>
    (if t = .descendantSegmentType then ".." else "") ++ "[" ++
      selectorListString sels ++ "]"

def segmentListString : List SegmentAst → String
  | [] => ""
  | s :: rest => segmentString s ++ segmentListString rest

/-- Embedding of nodeIdentifier.string. -/
def nodeIdentifierString : NodeIdentifier → String
  | .mk sym segs =>
    (match sym with
     | .rootNodeSymbol => "$"
     | .currentNodeSymbol => "@") ++ segmentListString segs

/-- Embedding of the filterExpr string methods.  A logicalExpr with a nil
right operand under a binary operator would dereference nil in the source and
is printed with an empty right side here; the parser never constructs it. -/
def filterExprString : FilterExpr → String
  | .logicalExpr l r op =>
    if op = .notOp then logicalOpString op ++ filterExprString l
    else
      filterExprString l ++ logicalOpString op ++
        (match r with
         | some rr => filterExprString rr
         | none => "")
  | .compareExpr l r op => filterExprString l ++ comparisonOpString op ++ filterExprString r
  | .filterQry exOnly p =>
    "\x7bevalExistenceOnly=" ++ boolString exOnly ++ "\x7d" ++ queryParserString p
  | .functionExpr fct args => fct ++ "(" ++ filterExprListString args ++ ")"
  | .parenExpr e => "(" ++ filterExprString e ++ ")"
  | .stringLiteral s => goQuote s
  | .intLiteral i => toString i
  | .floatLiteral f => floatEString f
  | .boolLiteral b => boolString b
  | .nullLiteral => "null"

/-- Comma separated argument list of functionExpr.string. -/
def filterExprListString : List FilterExpr → String
  | [] => ""
  | [e] => filterExprString e
  | e :: rest => filterExprString e ++ "," ++ filterExprListString rest

/-- Embedding of queryParser.string: a brace wrapped name and singular flag
prefix, then the node identifier with its segments. -/
def queryParserString : QueryParserAst → String
  | .mk name root isSingular =>
    "\x7bname=" ++ name ++ ",singular=" ++ boolString isSingular ++ "\x7d" ++
      nodeIdentifierString root

end

/-- Template elements (parsetmpl.go).  nilElem is the nil templateElem
interface value that the range body parser can append when a quoted text
element is empty; executing it panics in the source. -/
inductive TemplateElem where
  | textTemplateElem (text : String) : TemplateElem
  | jsonpathTemplateElem (qryParser : QueryParserAst) : TemplateElem
  | rangeTemplateElem (qryParser : QueryParserAst) (elems : List TemplateElem) : TemplateElem
  | nilElem : TemplateElem

/-- Output formats (genoutput.go enumeration, needed only for the newline
prefix decision of execJPTmpl). -/
inductive OutputFormatEnum where
  | jsonFormatted | legacyFormatted | condensedJsonFormatted
deriving DecidableEq, Repr

/-- Embedding of resultFormat. -/
structure resultFormat where
  format : OutputFormatEnum
  floatFormat : String

/-- Whitespace class of the regexp escape backslash s. -/
def isRegexSpace (c : Char) : Bool :=
  c = ' ' ∨ c = '\t' ∨ c = '\n' ∨ c = '\x0c' ∨ c = '\r'

/-- Model of the lookahead with rangeTmplElemStartRegexp. -/
def rangeStartMatch (l : List Char) : Bool :=
  match l with
  | '{' :: r1 => List.isPrefixOf ['r', 'a', 'n', 'g', 'e'] (r1.dropWhile isRegexSpace)
  | _ => false

/-- Model of the lookahead with rangeTmplElemEndRegexp. -/
def rangeEndMatch (l : List Char) : Bool :=
  match l with
  | '{' :: r1 =>
    let r2 := r1.dropWhile isRegexSpace
    if List.isPrefixOf ['e', 'n', 'd'] r2 then
      ((r2.drop 3).dropWhile isRegexSpace).head? = some '}'
    else false
  | _ => false

/-- Model of the lookahead with quotedElemStartRegexp. -/
def quotedStartMatch (l : List Char) : Bool :=
  match l with
  | '{' :: r1 =>
    match (r1.dropWhile isRegexSpace).head? with
    | some c => c = '"' ∨ c = '\''
    | none => false
  | _ => false

/-- Model of the lookahead with jpElemStartRegexp. -/
def jpStartMatch (l : List Char) : Bool :=
  match l with
  | '{' :: r1 =>
    match (r1.dropWhile isRegexSpace).head? with
    | some c => c = '$' ∨ c = '.' ∨ c = '@' ∨ c = '['
    | none => false
  | _ => false

/-- Embedding of parseQuotedTextElem: a quoted text becomes a Text element,
an empty one becomes the nil element. -/
def parseQuotedTextElem (name : String) (st : PState) :
    Except SyntaxError (Option TemplateElem × PState) :=
  match parseQuote st with
  | .error e => .error ⟨name, e, String.mk st.input, st.pos⟩
  | .ok (text, st1) =>
    if text.length > 0 then .ok (some (.textTemplateElem text), st1)
    else .ok (none, st1)

mutual

/-- Embedding of the parseTemplateElems loop (accumulator style); quotes and
curly elements interrupt the pending text, eof ends the template. -/
def parseTemplateElemsLoop : Nat → String → Bool → Nat → List TemplateElem → PState →
    Except SyntaxError (List TemplateElem × Nat × PState)
  | 0, name, _, _, _, st => .error ⟨name, "out of fuel", String.mk st.input, st.pos⟩
  | fuel + 1, name, absDefault, qcnt, acc, st =>
    match peekP st with
    | some c =>
      if c = '"' ∨ c = '\'' then
        let v := consumeP st
        if v.1.length > 0 then
          .error ⟨name, "unexpected quote", String.mk st.input, st.pos⟩
        else
          match parseQuotedTextElem name v.2 with
          | .error e => .error e
          | .ok (elemO, st1) =>
            parseTemplateElemsLoop fuel name absDefault qcnt
              (acc ++ (match elemO with
                       | some e => [e]
                       | none => [])) st1
      else if c = '{' then
        let v := consumeP st
        let acc1 := if v.1.length > 0 then acc ++ [.textTemplateElem (String.mk v.1)] else acc
        match parseCurlyTemplateElem fuel name absDefault qcnt v.2 with
        | .error e => .error e
        | .ok (elemO, qc1, st1) =>
          parseTemplateElemsLoop fuel name absDefault qc1
            (acc1 ++ (match elemO with
                      | some e => [e]
                      | none => [])) st1
      else parseTemplateElemsLoop fuel name absDefault qcnt acc (nextP st).2
    | none =>
      let v := consumeP st
      if v.1.length > 0 then .ok (acc ++ [.textTemplateElem (String.mk v.1)], qcnt, v.2)
      else .ok (acc, qcnt, v.2)

/-- Embedding of parseCurlyTemplateElem: dispatch on the regexp lookaheads
for a range opener, a quoted text element or an embedded query. -/
def parseCurlyTemplateElem : Nat → String → Bool → Nat → PState →
    Except SyntaxError (Option TemplateElem × Nat × PState)
  | 0, name, _, _, st => .error ⟨name, "out of fuel", String.mk st.input, st.pos⟩
  | fuel + 1, name, absDefault, qcnt, st =>
    if rangeStartMatch st.remaining then parseRangeEndOp fuel name absDefault qcnt st
    else if quotedStartMatch st.remaining then
      let c1 := consumeNextP st
      if c1.1 ≠ some '{' then
        .error ⟨name, "expected left delimiter", String.mk st.input, c1.2.pos⟩
      else
        let pk := peekConsumingAllWhitespacesP c1.2
        match parseQuotedTextElem name pk.2 with
        | .error e => .error e
        | .ok (elemO, st2) =>
          let nx := nextSkippingAllWhitespacesP st2
          if nx.1 ≠ some '}' then
            .error ⟨name, "expected right delimiter", String.mk st2.input, nx.2.pos⟩
          else .ok (elemO, qcnt, (consumeP nx.2).2)
    else if jpStartMatch st.remaining then
      let c1 := consumeNextP st
      if c1.1 ≠ some '{' then
        .error ⟨name, "expected left delimiter", String.mk st.input, c1.2.pos⟩
      else
        let pk := peekConsumingAllWhitespacesP c1.2
        match parseJsonPathElem fuel name absDefault qcnt pk.2 with
        | .error e => .error e
        | .ok (elem, qc1, st2) =>
          let nx := nextSkippingAllWhitespacesP st2
          if nx.1 ≠ some '}' then
            .error ⟨name, "expected right delimiter", String.mk st2.input, nx.2.pos⟩
          else .ok (some elem, qc1, (consumeP nx.2).2)
    else
      .error ⟨name, "invalid template element (hint: static text elements need quotes)",
        String.mk st.input, st.pos⟩

/-- Embedding of parseJsonPathElem: bump the template query counter and parse
an inner query with the current default context. -/
def parseJsonPathElem : Nat → String → Bool → Nat → PState →
    Except SyntaxError (TemplateElem × Nat × PState)
  | 0, name, _, _, st => .error ⟨name, "out of fuel", String.mk st.input, st.pos⟩
  | fuel + 1, _name, absDefault, qcnt, st =>
    let qc1 := qcnt + 1
    match parseInnerQuery fuel ("tmplQry-" ++ toString (qc1 - 1)) absDefault st with
    | .error e => .error e
    | .ok (p, st1) => .ok (.jsonpathTemplateElem p, qc1, st1)

/-- Embedding of parseRangeEndOp: the range header query inside its braces,
then the body elements parsed with relative default context up to the
matching end token. -/
def parseRangeEndOp : Nat → String → Bool → Nat → PState →
    Except SyntaxError (Option TemplateElem × Nat × PState)
  | 0, name, _, _, st => .error ⟨name, "out of fuel", String.mk st.input, st.pos⟩
  | fuel + 1, name, _absDefault, qcnt, st =>
    let c1 := consumeNextP st
    if c1.1 ≠ some '{' then
      .error ⟨name, "expected left delimiter", String.mk st.input, c1.2.pos⟩
    else
      let pk := peekConsumingAllWhitespacesP c1.2
      let st1 := pk.2
      if ¬ (List.isPrefixOf ['r', 'a', 'n', 'g', 'e'] st1.remaining) then
        .error ⟨name, "internal error - assertion", String.mk st1.input, st1.pos⟩
      else
        let st2 := (consumeP { st1 with pos := st1.pos + 5 }).2
        match parseJsonPathElem fuel name true qcnt st2 with
        | .error e => .error e
        | .ok (qryElem, qc1, st3) =>
          match qryElem with
          | .jsonpathTemplateElem qp =>
            let nx := nextSkippingAllWhitespacesP st3
            if nx.1 ≠ some '}' then
              .error ⟨name, "expected right delimiter", String.mk st3.input, nx.2.pos⟩
            else
              (match parseRangeBody fuel name qc1 [] (consumeP nx.2).2 with
               | .error e => .error e
               | .ok (elems, qc2, st4) =>
                 .ok (some (.rangeTemplateElem qp elems), qc2, st4))
          | _ => .error ⟨name, "internal error - assertion", String.mk st3.input, st3.pos⟩

/-- Body loop of parseRangeEndOp (default context switched to Current by the
caller passing parseJsonPathElem through parseCurlyTemplateElem with
absDefault false). -/
def parseRangeBody : Nat → String → Nat → List TemplateElem → PState →
    Except SyntaxError (List TemplateElem × Nat × PState)
  | 0, name, _, _, st => .error ⟨name, "out of fuel", String.mk st.input, st.pos⟩
  | fuel + 1, name, qcnt, acc, st =>
    match peekP st with
    | some c =>
      if c = '"' ∨ c = '\'' then
        let v := consumeP st
        if v.1.length > 0 then
          .error ⟨name, "unescaped quotes can only be at the beginning of a quoted text element",
            String.mk st.input, st.pos⟩
        else
          match parseQuotedTextElem name v.2 with
          | .error e => .error e
          | .ok (elemO, st1) =>
            parseRangeBody fuel name qcnt (acc ++ [elemO.getD .nilElem]) st1
      else if c = '{' then
        let v := consumeP st
        let acc1 := if v.1.length > 0 then acc ++ [.textTemplateElem (String.mk v.1)] else acc
        if rangeEndMatch v.2.remaining then
          let c1 := consumeNextP v.2
          if c1.1 ≠ some '{' then
            .error ⟨name, "expected left delimiter", String.mk v.2.input, c1.2.pos⟩
          else
            let pk := peekConsumingAllWhitespacesP c1.2
            let st1 := pk.2
            if ¬ (List.isPrefixOf ['e', 'n', 'd'] st1.remaining) then
              .error ⟨name, "internal error - assertion", String.mk st1.input, st1.pos⟩
            else
              let st2 := (consumeP { st1 with pos := st1.pos + 3 }).2
              let nx := nextSkippingAllWhitespacesP st2
              if nx.1 ≠ some '}' then
                .error ⟨name, "expected right delimiter", String.mk st2.input, nx.2.pos⟩
              else .ok (acc1, qcnt, (consumeP nx.2).2)
        else
          match parseCurlyTemplateElem fuel name false qcnt v.2 with
          | .error e => .error e
          | .ok (elemO, qc1, st1) =>
            parseRangeBody fuel name qc1
              (acc1 ++ (match elemO with
                        | some e => [e]
                        | none => [])) st1
      else parseRangeBody fuel name qcnt acc (nextP st).2
    | none =>
      .error ⟨name, "unexpected end of range-end-template", String.mk st.input, st.pos⟩

end

/-- Embedding of templateParser.parse: a fresh cursor, absolute default
context and the accumulated element list. -/
def templateParserParse (fuel : Nat) (name template : String) :
    Except SyntaxError (List TemplateElem) :=
  match parseTemplateElemsLoop fuel name true 0 [] ⟨template.data, 0, 0, 0⟩ with
  | .error e => .error e
  | .ok (elems, _, _) => .ok elems

/-- Embedding of tmplExecCtxt; the output writer becomes a returned string
and printResults (an output formatter, an external collaborator in the spec)
is a parameter taking the result set, the format and the prefix. -/
structure tmplExecCtxt where
  format : resultFormat
  printResults : RSet → resultFormat → String → String
  rootDataNode : RValue
  allowMissingKeys : Bool
  qryFunctions : FunctionRegistry
  enableDebugMsgs : Bool

mutual

/-- Embedding of execTmplElem. -/
def execTmplElem : Nat → tmplExecCtxt → TemplateElem → RValue → Except ExecErr String
  | 0, _, _, _ => .error .outOfFuel
  | fuel + 1, ctx, te, curNode =>
    match te with
    | .textTemplateElem t => .ok t
    | .jsonpathTemplateElem jp => execJPTmpl fuel ctx jp curNode
    | .rangeTemplateElem qp elems => execRangeTmpl fuel ctx qp elems curNode
    | .nilElem => .error (.panicErr "unknown templateElem type")

/-- Embedding of execJPTmpl. -/
def execJPTmpl : Nat → tmplExecCtxt → QueryParserAst → RValue → Except ExecErr String
  | 0, _, _, _ => .error .outOfFuel
  | fuel + 1, ctx, jp, curNode =>
    match executeQuery fuel jp ctx.rootDataNode curNode false ctx.allowMissingKeys
        ctx.qryFunctions ctx.enableDebugMsgs with
    | .error e => .error e
    | .ok rs =>
      match rs with
      | none => .error (.plainErr "nil returned by jsonpath query")
      | some _ =>
        let pre : String :=
          match ctx.format.format with
          | .jsonFormatted => "\n"
          | .legacyFormatted | .condensedJsonFormatted => ""
        .ok (ctx.printResults rs ctx.format pre)

/-- Embedding of execRangeTmpl. -/
def execRangeTmpl : Nat → tmplExecCtxt → QueryParserAst → List TemplateElem → RValue →
    Except ExecErr String
  | 0, _, _, _, _ => .error .outOfFuel
  | fuel + 1, ctx, qp, body, curNode =>
    match executeQuery fuel qp ctx.rootDataNode curNode false ctx.allowMissingKeys
        ctx.qryFunctions ctx.enableDebugMsgs with
    | .error e => .error e
    | .ok rs =>
      match rs with
      | none => .error (.plainErr "nil returned by jsonpath query")
      | some results => execRangeLoop fuel ctx body results

/-- Iteration of execRangeTmpl over the result elements. -/
def execRangeLoop : Nat → tmplExecCtxt → List TemplateElem → List RValue →
    Except ExecErr String
  | 0, _, _, _ => .error .outOfFuel
  | _ + 1, _, _, [] => .ok ""
  | fuel + 1, ctx, body, r :: rest =>
    match execTmplList fuel ctx body r with
    | .error e => .error e
    | .ok s1 =>
      match execRangeLoop fuel ctx body rest with
      | .error e => .error e
      | .ok s2 => .ok (s1 ++ s2)

/-- Element loop shared by executeTemplate and the range body execution. -/
def execTmplList : Nat → tmplExecCtxt → List TemplateElem → RValue → Except ExecErr String
  | 0, _, _, _ => .error .outOfFuel
  | _ + 1, _, [], _ => .ok ""
  | fuel + 1, ctx, te :: rest, curNode =>
    match execTmplElem fuel ctx te curNode with
    | .error e => .error e
    | .ok s1 =>
      match execTmplList fuel ctx rest curNode with
      | .error e => .error e
      | .ok s2 => .ok (s1 ++ s2)

end

/-- Embedding of executeTemplate: run every template element against the root
data node, concatenating the writes. -/
def executeTemplate (fuel : Nat) (ctx : tmplExecCtxt) (templateElems : List TemplateElem) :
    Except ExecErr String :=
  execTmplList fuel ctx templateElems ctx.rootDataNode

/-- Pure specification of the slice selection loop state machine: walking the
prepared items in order, an item is taken exactly when its index equals the
running nextSliceIndex and that index lies strictly before sliceEnd in the
traversal direction, after which nextSliceIndex advances by sliceStep. -/
def sliceGoldItems (sliceEnd stepDir sliceStep : Int) :
    Int → List (RValue × FieldKey × Int) → List RValue
  | _, [] => []
  | next, item :: rest =>
    if item.2.2 = next ∧ (stepDir > 0 ∧ next < sliceEnd ∨ stepDir < 0 ∧ next > sliceEnd) then
      item.1 :: sliceGoldItems sliceEnd stepDir sliceStep (next + sliceStep) rest
    else sliceGoldItems sliceEnd stepDir sliceStep next rest

/-- Prepared walk items of an array node: the element, the empty field key
and the index, for indices a to a+m-1. -/
def ascItems (elems : List RValue) (a m : Nat) : List (RValue × FieldKey × Int) :=
  (List.range' a m).map (fun i => (elems.getD i .vNull, FieldKey.fkStr "", (i : Int)))

/-- The arithmetic progression predicate of the slice claim: index at or
after the resolved start, congruent to it modulo the step, strictly before
the resolved end. -/
def sliceFilterPred (S E K : Int) (i : Nat) : Bool :=
  decide (S ≤ (i : Int)) && decide (((i : Int) - S) % K = 0) && decide ((i : Int) < E)

/-- Unwrapping of the sole ResultSet element done by evalSingularExpr. -/
def singularOfElem : RValue → Option SingVal
  | .vNull => none
  | .vBool b => some (.svBool b)
  | .vInt i => some (.svInt i)
  | .vUint u => some (.svUint u)
  | .vFloat f => some (.svFloat f)
  | .vStr s => some (.svStr s)
  | .vArr es => some (.svReflect (.vArr es))
  | .vMap es => some (.svReflect (.vMap es))
  | .vStruct es => some (.svReflect (.vStruct es))

/-- Property of claim C5, written from the claim text: every segment is a
Child segment holding exactly one selector that is a Name or an Index
selector. -/
def singularSpecProp (segs : List SegmentAst) : Prop :=
  ∀ s ∈ segs, s.getType = .childSegmentType ∧
    ∃ sel, s.getSelectors = [sel] ∧
      ((∃ nm, sel = .nameSelector nm) ∨ (∃ i, sel = .indexSelector i))

/-- A ResultSet argument holding more than one element (the only shape the
singular string extraction rejects). -/
def isMultiRS (a : Option QueryResult) : Prop :=
  ∃ l, a = some (.resultSet (some l)) ∧ 1 < l.length

/-- Registries whose functions never produce a missing key error (true of the
builtin registry; a caller registered function is free to misbehave). -/
def regMissingKeyFree (fcts : FunctionRegistry) : Prop :=
  ∀ p : String × QueryFunction, p ∈ fcts → ∀ args e, p.2 args = .error e → e.isMissingKey = false

/-- Execution context fixture for concrete evaluations. -/
def ctxFix (amk : Bool) : qryExecContext :=
  { name := "t", dataRoot := .vMap [], evalExistenceOnly := false,
    allowMissingKeys := amk, remainingSegments := [], functions := [],
    enableDbgMsgs := false, curSegment := none, curSelector := none }

/-- Relative sub query selecting the member x of the current node. -/
def qryCurrentX : QueryParserAst :=
  .mk "filterQry-0" (.mk .currentNodeSymbol [.mk .childSegmentType [.nameSelector "x"]]) true

/-- Filter query expression over qryCurrentX as a comparison operand. -/
def exprEmptyQry : FilterExpr :=
  .filterQry false qryCurrentX

/-- Query AST fixture for claim C2: a Child segment holding the filter whose
relative sub query selects the member b and compares it with 1. -/
def qFilterChildFix : QueryParserAst :=
  .mk "t"
    (.mk .rootNodeSymbol
      [.mk .childSegmentType
        [.filterSelector
          (.compareExpr
            (.filterQry false
              (.mk "filterQry-0"
                (.mk .currentNodeSymbol [.mk .childSegmentType [.nameSelector "b"]]) true))
            (.intLiteral 1) .eqOp)]])
    false

/-- The AST of the query consisting of a dollar sign, a dot and the name abc,
as produced by the top level parser. -/
def astDotAbc : QueryParserAst :=
  .mk "JSONPathQry" (.mk .rootNodeSymbol [.mk .childSegmentType [.nameSelector "abc"]]) false

/-- The AST the parser yields on any pretty printed query: the Root
identifier with no segments. -/
def astRootEmpty : QueryParserAst :=
  .mk "JSONPathQry" (.mk .rootNodeSymbol []) false

/-- Relative sub query selecting all children of the current node. -/
def qryCurrentWild : QueryParserAst :=
  .mk "filterQry-0" (.mk .currentNodeSymbol [.mk .childSegmentType [.wildcardSelector]]) false

/-- Filter query expression over qryCurrentWild as a comparison operand. -/
def exprWildQry : FilterExpr :=
  .filterQry false qryCurrentWild

/-- The tolerant execution context condition: missing keys allowed and no
registered function fabricating a missing key error. -/
def ctxOK (ctx : qryExecContext) : Prop :=
  ctx.allowMissingKeys = true ∧ regMissingKeyFree ctx.functions

/-- A Descendant segment fixture holding a filter selector. -/
def segDescFix : SegmentAst :=
  .mk .descendantSegmentType [.filterSelector (.functionExpr "nope" [])]

/-- Execution context fixture currently inside the Descendant segment. -/
def ctxDescFix : qryExecContext :=
  { name := "t", dataRoot := .vMap [], evalExistenceOnly := false,
    allowMissingKeys := false, remainingSegments := [], functions := [],
    enableDbgMsgs := false, curSegment := some segDescFix, curSelector := none }

/-- Relative sub query whose filter calls an unregistered function. -/
def qryFnFix : QueryParserAst :=
  .mk "filterQry-1"
    (.mk .currentNodeSymbol
      [.mk .childSegmentType [.filterSelector (.functionExpr "nope" [])]])
    false

/-- Execution context fixture whose current selector is a slice. -/
def ctxSliceFix (start stop : OptionalInt) (K : Int) : qryExecContext :=
  { name := "t", dataRoot := .vMap [], evalExistenceOnly := false,
    allowMissingKeys := true, remainingSegments := [], functions := [],
    enableDbgMsgs := false, curSegment := none,
    curSelector := some (.arraySliceSelector start stop K) }

/-- The six string array of the repository slice tests. -/
def elemsFix : List RValue :=
  [.vStr "a", .vStr "b", .vStr "c", .vStr "d", .vStr "e", .vStr "f"]

/-- C10: on empty input the two compile entry points diverge: the query parser
always fails with the SyntaxError whose message is invalid query - empty,
while the template parser always yields the empty element list, whose
execution writes the empty string and returns no error for any context, hence
for any input data. -/
theorem C10_empty_inputs :
    (∀ fuel, queryParserParse fuel "" =
       .error ⟨"JSONPathQry", "invalid query - empty", "", 0⟩) ∧
    (∀ fuel, templateParserParse (fuel + 1) "JSONPathTemplateParser" "" = .ok []) ∧
    (∀ fuel ctx, executeTemplate (fuel + 1) ctx [] = .ok "") :=
  ⟨fun _ => rfl, fun _ => rfl, fun _ _ => rfl⟩

/-- C6 counterexample: the builtin count applied to a Singular argument
returns an error, not null as the claim states. -/
theorem C6_count_singular_is_error :
    count [some (.singular (some (.svInt 3)))] =
      .error (.plainErr "count - unsupported type of QueryResult") := rfl

/-- C6 (amended): count with one ResultSet argument returns its element count
as a Singular integer; a nil argument or a nil Elems slice yield null without
error; a Singular argument is an error, and so is any argument count other
than one. -/
theorem C6_count_characterization :
    (∀ rs : List RValue, count [some (.resultSet (some rs))] =
       .ok (some (.singular (some (.svInt rs.length))))) ∧
    (count [none] = .ok none) ∧
    (count [some (.resultSet none)] = .ok none) ∧
    (∀ v, count [some (.singular v)] =
       .error (.plainErr "count - unsupported type of QueryResult")) ∧
    (∀ args : List (Option QueryResult), args.length ≠ 1 →
       count args = .error (.plainErr "invalid nr of args to function count")) := by
  refine ⟨fun _ => rfl, rfl, rfl, fun _ => rfl, fun args h => ?_⟩
  match args with
  | [] => rfl
  | [_] => exact absurd rfl h
  | _ :: _ :: _ => rfl

/-- C6 witness: the characterization applied to a two element ResultSet and
to an empty argument list. -/
theorem C6_count_characterization_witness :
    count [some (.resultSet (some [.vInt 7, .vStr "x"]))] =
      .ok (some (.singular (some (.svInt 2)))) ∧
    count [] = .error (.plainErr "invalid nr of args to function count") :=
  ⟨C6_count_characterization.1 [.vInt 7, .vStr "x"],
   C6_count_characterization.2.2.2.2 [] (by decide)⟩

/-- C7 counterexample: the escape sequence backslash b inside a single quoted
string is rejected by the lexer, not honored as the claim states. -/
theorem C7_escape_b_rejected :
    parseQuote ⟨['\'', '\\', 'b', '\''], 0, 0, 0⟩ =
      .error "unexpected escaping of char" := rfl

/-- C7 (amended): both quote forms unescape identically and honor backslash
backslash, the escaped delimiter, backslash u with four hex digits and
backslash U with eight hex digits (the scanner consumes only four hex digits
after backslash U, but the unquoter requires eight, so backslash U with just
four hex digits is rejected end to end); the letter escapes backslash b,
backslash f and backslash r are rejected by the scanner, backslash slash
passes the scanner and is then rejected by the unquoter, an escaped newline
is rejected, and a literal newline inside a quoted string is accepted rather
than rejected. -/
theorem C7_quoted_string_lexing :
    ((parseQuote ⟨['\'', '\\', '\\', '\''], 0, 0, 0⟩).map Prod.fst = .ok "\\") ∧
    ((parseQuote ⟨['"', '\\', '\\', '"'], 0, 0, 0⟩).map Prod.fst = .ok "\\") ∧
    ((parseQuote ⟨['\'', '\\', '\'', '\''], 0, 0, 0⟩).map Prod.fst =
       .ok (String.mk ['\''])) ∧
    ((parseQuote ⟨['"', '\\', '"', '"'], 0, 0, 0⟩).map Prod.fst = .ok "\"") ∧
    ((parseQuote ⟨['\'', '\\', 'u', '0', '0', '4', '1', '\''], 0, 0, 0⟩).map Prod.fst =
       .ok "A") ∧
    ((parseQuote ⟨['"', '\\', 'u', '0', '0', '4', '1', '"'], 0, 0, 0⟩).map Prod.fst =
       .ok "A") ∧
    ((parseQuote ⟨['\'', '\\', 'U', '0', '0', '0', '1', 'F', '6', '0', '2', '\''],
        0, 0, 0⟩).map Prod.fst = .ok (String.mk [Char.ofNat 128514])) ∧
    ((parseQuote ⟨['"', '\\', 'U', '0', '0', '0', '1', 'F', '6', '0', '2', '"'],
        0, 0, 0⟩).map Prod.fst = .ok (String.mk [Char.ofNat 128514])) ∧
    (parseQuote ⟨['\'', '\\', 'U', 'a', 'b', 'c', 'd', '\''], 0, 0, 0⟩ =
       .error "unquote: unknown escape") ∧
    (parseQuote ⟨['\'', '\\', 'f', '\''], 0, 0, 0⟩ =
       .error "unexpected escaping of char") ∧
    (parseQuote ⟨['\'', '\\', 'r', '\''], 0, 0, 0⟩ =
       .error "unexpected escaping of char") ∧
    (parseQuote ⟨['"', '\\', 'b', '"'], 0, 0, 0⟩ =
       .error "unexpected escaping of char") ∧
    (parseQuote ⟨['\'', '\\', '/', '\''], 0, 0, 0⟩ =
       .error "unquote: unknown escape") ∧
    (parseQuote ⟨['\'', '\\', '\n', '\''], 0, 0, 0⟩ =
       .error "newline not supported in quoted strings") ∧
    ((parseQuote ⟨['\'', 'a', '\n', 'b', '\''], 0, 0, 0⟩).map Prod.fst = .ok "a\nb") :=
  ⟨rfl, rfl, rfl, rfl, rfl, rfl, rfl, rfl, rfl, rfl, rfl, rfl, rfl, rfl, rfl⟩

/-- C1 counterexample: with both operands missing every comparison operator
returns true, the ordering operator and the inequality operator included (the
claim expects false for the ordering operators and an exactly one sided rule
for inequality); and a null operand compared with a missing operand yields
false under equality, though both are null or missing. -/
theorem C1_null_missing_counterexample :
    compareValues 1 none none .ltOp = some true ∧
    compareValues 1 none none .neOp = some true ∧
    compareValues 1 (some none) none .eqOp = some false :=
  ⟨rfl, rfl, rfl⟩

/-- C1 (amended): compareValues ignores the operator whenever a side is a nil
Singular pointer (missing) or a nil Value (JSON null): missing versus missing
and null versus null are true for every operator, missing versus present and
null versus non-null are false for every operator; and an operand whose
filter query yields an empty ResultSet reaches the comparison as the missing
value none. -/
theorem C1_null_missing_characterization :
    (∀ fuel op, compareValues fuel none none op = some true) ∧
    (∀ fuel op v, compareValues fuel none (some v) op = some false) ∧
    (∀ fuel op v, compareValues fuel (some v) none op = some false) ∧
    (∀ fuel op, compareValues fuel (some none) (some none) op = some true) ∧
    (∀ fuel op sv, compareValues fuel (some none) (some (some sv)) op = some false) ∧
    (∀ fuel op sv, compareValues fuel (some (some sv)) (some none) op = some false) ∧
    (∀ fuel ctx node expr,
       evalExpr fuel ctx node expr = .ok (some (.resultSet (some []))) →
       evalSingularExpr (fuel + 1) ctx node expr = .ok none) := by
  refine ⟨fun _ _ => rfl, fun _ _ _ => rfl, fun _ _ v => ?_, fun _ _ => rfl,
    fun _ _ _ => rfl, fun _ _ sv => ?_, fun fuel ctx node expr h => ?_⟩
  · cases v <;> rfl
  · rfl
  · simp only [evalSingularExpr, h]
    rfl

/-- C1 witness: the characterization applied to the greater or equal operator
on two missing operands, and to a filter query over an empty map, whose empty
ResultSet reduces to the missing value. -/
theorem C1_null_missing_witness :
    compareValues 3 none none .geOp = some true ∧
    evalSingularExpr 10 (ctxFix true) (.vMap []) exprEmptyQry = .ok none :=
  ⟨C1_null_missing_characterization.1 3 .geOp,
   C1_null_missing_characterization.2.2.2.2.2.2 9 (ctxFix true) (.vMap [])
     exprEmptyQry (by rfl)⟩

/-- C4 counterexample: a comparison whose left operand filter query yields an
empty ResultSet compares as missing, not as null: compared with the null
literal under equality the result is false, while null versus null is true. -/
theorem C4_empty_resultset_is_missing :
    evalCompareExpr 12 (ctxFix true) (.vMap []) exprEmptyQry .nullLiteral .eqOp =
      .ok (.svBool false) ∧
    compareValues 1 (some none) (some none) .eqOp = some true :=
  ⟨rfl, rfl⟩

/-- C4 (amended): over any operand expression whose evaluation yields a
ResultSet, the singular reduction errors exactly on more than one element;
an empty ResultSet reduces to the missing value none (not to null), and a
sole element is unwrapped. -/
theorem C4_singular_reduction (fuel : Nat) (ctx : qryExecContext) (node : RValue)
    (expr : FilterExpr) (rsO : Option (List RValue))
    (h : evalExpr fuel ctx node expr = .ok (some (.resultSet rsO))) :
    ((rsO.getD []).length > 1 →
       evalSingularExpr (fuel + 1) ctx node expr =
         .error (.notSingular
           "resultSet with multiple elements presented to comparison-expression")) ∧
    (rsO.getD [] = [] → evalSingularExpr (fuel + 1) ctx node expr = .ok none) ∧
    (∀ e0, rsO.getD [] = [e0] →
       evalSingularExpr (fuel + 1) ctx node expr = .ok (some (singularOfElem e0))) := by
  refine ⟨fun hlen => ?_, fun he => ?_, fun e0 he => ?_⟩ <;>
    simp only [evalSingularExpr, h]
  · rw [if_pos hlen]
  · rw [he]
    rfl
  · rw [he]
    cases e0 <;> rfl

/-- C4 witness: the reduction applied to a wildcard filter query over a two
element array (an error) and to the empty query of the C1 witness reused at
the concrete list level through the same theorem instance. -/
theorem C4_singular_reduction_witness :
    evalSingularExpr 21 (ctxFix true) (.vArr [.vInt 1, .vInt 2]) exprWildQry =
      .error (.notSingular
        "resultSet with multiple elements presented to comparison-expression") ∧
    evalSingularExpr 21 (ctxFix true) (.vMap []) exprEmptyQry = .ok none :=
  ⟨(C4_singular_reduction 20 (ctxFix true) (.vArr [.vInt 1, .vInt 2]) exprWildQry
      (some [.vInt 1, .vInt 2]) (by rfl)).1 (by decide),
   (C4_singular_reduction 20 (ctxFix true) (.vMap []) exprEmptyQry
      (some []) (by rfl)).2.1 (by rfl)⟩

/-- C5 counterexample: the top level query parser accepts the query built of
a dollar sign, a dot and a name, whose AST consists solely of Child segments
each holding one Name selector, yet its singular flag is false. -/
theorem C5_top_level_flag_counterexample :
    queryParserParse 20 "$.abc" = .ok astDotAbc ∧
    computeIsSingular astDotAbc.root.segments = true ∧
    astDotAbc.isSingular = false :=
  ⟨rfl, rfl, rfl⟩

/-- C5 (amended): the singularity computation matches the claimed predicate
(every segment a Child segment holding exactly one Name or Index selector),
and parseInnerQuery (filter sub queries and template queries) stores exactly
that computation in the flag; but the top level query parser entry point
leaves the flag false on every accepted query. -/
theorem C5_singular_flag :
    (∀ segs, computeIsSingular segs = true ↔ singularSpecProp segs) ∧
    (∀ fuel name abs st p st1,
       parseInnerQuery fuel name abs st = .ok (p, st1) →
       p.isSingular = computeIsSingular p.root.segments) ∧
    (∀ fuel q p, queryParserParse fuel q = .ok p → p.isSingular = false) := by
  refine ⟨fun segs => ?_, fun fuel name abs st p st1 h => ?_, fun fuel q p h => ?_⟩
  · induction segs with
    | nil => simp [computeIsSingular, singularSpecProp]
    | cons s rest ih =>
      obtain ⟨t, sels⟩ := s
      simp only [singularSpecProp, List.forall_mem_cons] at *
      cases t with
      | descendantSegmentType =>
        simp [computeIsSingular, SegmentAst.getType]
      | childSegmentType =>
        match sels with
        | [] => simp [computeIsSingular, SegmentAst.getSelectors]
        | [.wildcardSelector] =>
          simp [computeIsSingular, SegmentAst.getSelectors]
        | [.nameSelector nm] =>
          simp [computeIsSingular, SegmentAst.getType, SegmentAst.getSelectors, ih,
            singularSpecProp]
        | [.indexSelector i] =>
          simp [computeIsSingular, SegmentAst.getType, SegmentAst.getSelectors, ih,
            singularSpecProp]
        | [.arraySliceSelector a b c] =>
          simp [computeIsSingular, SegmentAst.getSelectors]
        | [.filterSelector e] =>
          simp [computeIsSingular, SegmentAst.getSelectors]
        | s1 :: s2 :: srest =>
          simp [computeIsSingular, SegmentAst.getSelectors]
  · match fuel with
    | 0 => exact absurd h (by simp [parseInnerQuery])
    | f + 1 =>
      simp only [parseInnerQuery] at h
      cases hn : parseNodeIdentifier f name abs st with
      | error e => rw [hn] at h; exact absurd h (by simp)
      | ok v =>
        rw [hn] at h
        simp only [Except.ok.injEq, Prod.mk.injEq] at h
        obtain ⟨he, _⟩ := h
        subst he
        rfl
  · unfold queryParserParse at h
    by_cases hq : q.data.length ≤ 0
    · rw [if_pos hq] at h; exact absurd h (by simp)
    · rw [if_neg hq] at h
      cases hn : parseNodeIdentifier fuel "JSONPathQry" true ⟨q.data, 0, 0, 0⟩ with
      | error e => rw [hn] at h; exact absurd h (by simp)
      | ok v =>
        rw [hn] at h
        simp only [Except.ok.injEq] at h
        exact h ▸ rfl

/-- C5 witness: the flag equations applied to the inner parse of the dollar
dot abc query (flag true) and the top level parse of the same text (flag
false). -/
theorem C5_singular_flag_witness :
    (QueryParserAst.mk "q"
        (.mk .rootNodeSymbol [.mk .childSegmentType [.nameSelector "abc"]])
        true).isSingular =
      computeIsSingular
        (QueryParserAst.mk "q"
          (.mk .rootNodeSymbol [.mk .childSegmentType [.nameSelector "abc"]])
          true).root.segments ∧
    astDotAbc.isSingular = false :=
  ⟨C5_singular_flag.2.1 20 "q" true ⟨['$', '.', 'a', 'b', 'c'], 0, 0, 0⟩ _
     ⟨['$', '.', 'a', 'b', 'c'], 5, 5, 0⟩ (by rfl),
   C5_singular_flag.2.2 20 "$.abc" astDotAbc (by rfl)⟩

/-- Without a multi element ResultSet argument the singular string extraction
never errors. -/
theorem getSingularString_ok (a : Option QueryResult) (h : ¬ isMultiRS a) :
    ∃ r, getSingularString a = .ok r := by
  match a with
  | none => exact ⟨_, rfl⟩
  | some (.singular none) => exact ⟨_, rfl⟩
  | some (.singular (some sv)) =>
    cases sv with
    | svBool b => exact ⟨_, rfl⟩
    | svInt i => exact ⟨_, rfl⟩
    | svUint u => exact ⟨_, rfl⟩
    | svFloat f => exact ⟨_, rfl⟩
    | svStr s => exact ⟨_, rfl⟩
    | svReflect rv => cases rv <;> exact ⟨_, rfl⟩
  | some (.resultSet none) => exact ⟨_, rfl⟩
  | some (.resultSet (some [])) => exact ⟨_, rfl⟩
  | some (.resultSet (some [e0])) => cases e0 <;> exact ⟨_, rfl⟩
  | some (.resultSet (some (e0 :: e1 :: rest))) =>
    exact absurd ⟨e0 :: e1 :: rest, rfl, by simp⟩ h

/-- C9: for both builtin regexp functions applied to two arguments, an error
occurs exactly for a multi element ResultSet argument or a failed pattern
compile: a multi element first or second argument errors; when neither
argument is a multi element ResultSet and either fails to reduce to a single
string, the result is null with no error; and when both reduce to strings the
result is the compiled verdict, an error exactly when the engine rejects the
pattern (anchored for match, bare for search). -/
theorem C9_match_search_errors (compileRx : String → Except String (String → Bool))
    (a b : Option QueryResult) :
    (isMultiRS a → ∃ msg,
       matchFct compileRx [a, b] = .error (.plainErr msg) ∧
       search compileRx [a, b] = .error (.plainErr msg)) ∧
    (¬ isMultiRS a → isMultiRS b → ∃ msg,
       matchFct compileRx [a, b] = .error (.plainErr msg) ∧
       search compileRx [a, b] = .error (.plainErr msg)) ∧
    (¬ isMultiRS a → ¬ isMultiRS b →
       (getSingularString a = .ok none ∨ getSingularString b = .ok none) →
       matchFct compileRx [a, b] = .ok none ∧ search compileRx [a, b] = .ok none) ∧
    (∀ sa sb,
       getSingularString a = .ok (some sa) → getSingularString b = .ok (some sb) →
       matchFct compileRx [a, b] =
         (match compileRx ("\\A(?:" ++ sb ++ ")\\z") with
          | .error msg => .error (.plainErr msg)
          | .ok re => .ok (some (.singular (some (.svBool (re sa)))))) ∧
       search compileRx [a, b] =
         (match compileRx sb with
          | .error msg => .error (.plainErr msg)
          | .ok re => .ok (some (.singular (some (.svBool (re sa))))))) := by
  refine ⟨fun hma => ?_, fun hna hmb => ?_, fun hna hnb hnull => ?_,
    fun sa sb hsa hsb => ?_⟩
  · obtain ⟨l, ha, hlen⟩ := hma
    subst ha
    match l, hlen with
    | e0 :: e1 :: rest, _ =>
      refine ⟨"cannot extract singular string from resultSet with multiple results",
        ?_, ?_⟩ <;> simp [matchFct, search, getSingularString]
  · obtain ⟨ra, hra⟩ := getSingularString_ok a hna
    obtain ⟨l, hb, hlen⟩ := hmb
    subst hb
    match l, hlen with
    | e0 :: e1 :: rest, _ =>
      refine ⟨"cannot extract singular string from resultSet with multiple results",
        ?_, ?_⟩
      · simp only [matchFct, hra]
        simp [getSingularString]
      · simp only [search, hra]
        simp [getSingularString]
  · obtain ⟨ra, hra⟩ := getSingularString_ok a hna
    obtain ⟨rb, hrb⟩ := getSingularString_ok b hnb
    rcases hnull with h1 | h1
    · rw [hra] at h1
      cases h1
      cases rb <;> simp [matchFct, search, hra, hrb]
    · rw [hrb] at h1
      cases h1
      cases ra <;> simp [matchFct, search, hra, hrb]
  · exact ⟨by simp [matchFct, hsa, hsb], by simp [search, hsa, hsb]⟩

/-- C9 witness: two nil arguments give null with no error, and a two element
ResultSet argument errors, both through the characterization. -/
theorem C9_match_search_errors_witness :
    matchFct (fun _ => .error "nocompile") [none, none] = .ok none ∧
    (∃ msg, matchFct (fun _ => .error "nocompile")
       [some (.resultSet (some [.vInt 1, .vInt 2])), none] = .error (.plainErr msg)) := by
  constructor
  · exact ((C9_match_search_errors (fun _ => .error "nocompile") none none).2.2.1
      (by simp [isMultiRS]) (by simp [isMultiRS]) (Or.inl rfl)).1
  · obtain ⟨msg, hm, _⟩ :=
      (C9_match_search_errors (fun _ => .error "nocompile")
        (some (.resultSet (some [.vInt 1, .vInt 2]))) none).1
        ⟨[.vInt 1, .vInt 2], rfl, by simp⟩
    exact ⟨msg, hm⟩

/-- The pretty printed form of every query AST starts with an opening brace
(the name and singular prefix). -/
theorem queryParserString_data (p : QueryParserAst) :
    ∃ t, (queryParserString p).data = '\x7b' :: t := by
  obtain ⟨name, root, sing⟩ := p
  refine ⟨("name=" ++ name ++ ",singular=" ++ boolString sing ++ "\x7d" ++
    nodeIdentifierString root).data, ?_⟩
  show ("\x7bname=" ++ name ++ ",singular=" ++ boolString sing ++ "\x7d" ++
    nodeIdentifierString root).data = _
  have h2 : ("\x7bname=" : String) = "\x7b" ++ "name=" := rfl
  have h3 : ("\x7b" : String).data = ['\x7b'] := rfl
  rw [h2]
  simp [String.data_append, h3]

/-- The query parser run on input starting with an opening brace consumes
nothing: it yields the default root identifier with no segments. -/
theorem parseNodeIdentifier_brace (fuel : Nat) (name : String) (abs : Bool)
    (t : List Char) :
    parseNodeIdentifier (fuel + 2) name abs ⟨'\x7b' :: t, 0, 0, 0⟩ =
      .ok (.mk (if abs then .rootNodeSymbol else .currentNodeSymbol) [],
        ⟨'\x7b' :: t, 0, 0, 0⟩) := by
  simp +decide [parseNodeIdentifier, parseSegment, peekConsumingAllWhitespacesP,
    countWs, PState.remaining, peekP, isWsChar]

/-- C8 (amended): parsing the pretty printed form of any query AST succeeds
but yields the bare Root identifier with no segments: the printed text starts
with the brace wrapped name prefix, at which the parser stops before reading
any segment, so the round trip loses every segment rather than restoring the
AST. -/
theorem C8_print_parse (p : QueryParserAst) (fuel : Nat) :
    queryParserParse (fuel + 2) (queryParserString p) = .ok astRootEmpty := by
  obtain ⟨t, ht⟩ := queryParserString_data p
  simp only [queryParserParse, ht]
  rw [if_neg (by simp)]
  rw [parseNodeIdentifier_brace fuel "JSONPathQry" true t]
  rfl

/-- C8 counterexample: the round trip through the printer loses the segment
of the dollar dot abc query: direct parsing yields one segment, parsing the
printed form yields the bare root with none, so the two ASTs differ. -/
theorem C8_roundtrip_counterexample :
    queryParserParse 20 (queryParserString astDotAbc) = .ok astRootEmpty ∧
    queryParserString astDotAbc =
      "\x7bname=JSONPathQry,singular=false\x7d$[\"abc\"]" ∧
    astDotAbc.root.segments.length = 1 ∧
    astRootEmpty.root.segments.length = 0 :=
  ⟨rfl, rfl, rfl, rfl⟩

/-- A function found in a registry is one of its entries. -/
theorem registryLookup_mem {r : FunctionRegistry} {n : String} {f : QueryFunction}
    (h : registryLookup r n = some f) :
    ∃ p : String × QueryFunction, p ∈ r ∧ p.2 = f := by
  unfold registryLookup at h
  cases hf : List.find? (fun p => p.1 = n) r with
  | none => rw [hf] at h; exact Option.noConfusion h
  | some q =>
    rw [hf] at h
    exact ⟨q, List.mem_of_find?_eq_some hf, Option.some.injEq .. ▸ h⟩

/-- With missing keys allowed every context tolerates them. -/
theorem areMissingKeysAllowed_of_allow (ctx : qryExecContext)
    (h : ctx.allowMissingKeys = true) : ctx.areMissingKeysAllowed = true := by
  simp [qryExecContext.areMissingKeysAllowed, h]

/-- Core tolerance property: with missing keys allowed (and a registry free
of fabricated missing key errors) no execution function returns a missing key
error, whatever else fails. -/
theorem exec_no_missingKey : ∀ fuel : Nat,
    (∀ p rootD cur exO fcts dbg e, regMissingKeyFree fcts →
       executeQuery fuel p rootD cur exO true fcts dbg = .error e →
       e.isMissingKey = false) ∧
    (∀ ctx node e, ctxOK ctx → findResults fuel ctx node = .error e →
       e.isMissingKey = false) ∧
    (∀ ctx node sels res e, ctxOK ctx →
       findResultsLoop fuel ctx node sels res = .error e → e.isMissingKey = false) ∧
    (∀ ctx node e, ctxOK ctx →
       selectChildrenAndFindResultsForThem fuel ctx node = .error e →
       e.isMissingKey = false) ∧
    (∀ ctx node e, ctxOK ctx →
       selectAllChildrenAndFindResultsForThem fuel ctx node = .error e →
       e.isMissingKey = false) ∧
    (∀ ctx node e, ctxOK ctx →
       selectChildByNameAndFindResultsForThem fuel ctx node = .error e →
       e.isMissingKey = false) ∧
    (∀ ctx node e, ctxOK ctx →
       selectChildByIndexAndFindResultsForThem fuel ctx node = .error e →
       e.isMissingKey = false) ∧
    (∀ ctx node e, ctxOK ctx →
       selectChildrenBySliceAndFindResultsForThem fuel ctx node = .error e →
       e.isMissingKey = false) ∧
    (∀ ctx node e, ctxOK ctx →
       selectChildrenByFilterAndFindResultsForThem fuel ctx node = .error e →
       e.isMissingKey = false) ∧
    (∀ ctx node e, ctxOK ctx → doWithSelected fuel ctx node = .error e →
       e.isMissingKey = false) ∧
    (∀ ctx np res e, ctxOK ctx → doWithSelectedDescend fuel ctx np res = .error e →
       e.isMissingKey = false) ∧
    (∀ ctx node e, ctxOK ctx → doWithNotSelected fuel ctx node = .error e →
       e.isMissingKey = false) ∧
    (∀ ctx node rev cls e, ctxOK ctx → walkChildren fuel ctx node rev cls = .error e →
       e.1.isMissingKey = false) ∧
    (∀ ctx k items cls res e, ctxOK ctx → walkLoop fuel ctx k items cls res = .error e →
       e.1.isMissingKey = false) ∧
    (∀ ctx cls k child fk idx e, ctxOK ctx →
       withChildSelect fuel ctx cls k child fk idx = .error e →
       e.isMissingKey = false) ∧
    (∀ ctx node expr e, ctxOK ctx → evalExpr fuel ctx node expr = .error e →
       e.isMissingKey = false) ∧
    (∀ ctx node expr e, ctxOK ctx →
       evalBoolSingularOrExistenceExpr fuel ctx node expr = .error e →
       e.isMissingKey = false) ∧
    (∀ ctx node l r op e, ctxOK ctx → evalLogicalExpr fuel ctx node l r op = .error e →
       e.isMissingKey = false) ∧
    (∀ ctx node expr e, ctxOK ctx → evalSingularExpr fuel ctx node expr = .error e →
       e.isMissingKey = false) ∧
    (∀ ctx node l r op e, ctxOK ctx → evalCompareExpr fuel ctx node l r op = .error e →
       e.isMissingKey = false) ∧
    (∀ ctx node fct args e, ctxOK ctx → evalFunctionExpr fuel ctx node fct args = .error e →
       e.isMissingKey = false) ∧
    (∀ ctx node args e, ctxOK ctx → evalArgsLoop fuel ctx node args = .error e →
       e.isMissingKey = false) ∧
    (∀ ctx node exO parser e, ctxOK ctx →
       evalFilterQryExpr fuel ctx node exO parser = .error e →
       e.isMissingKey = false) := by
  intro fuel
  induction fuel with
  | zero =>
    refine ⟨?_, ?_, ?_, ?_, ?_, ?_, ?_, ?_, ?_, ?_, ?_, ?_, ?_, ?_, ?_, ?_, ?_,
      ?_, ?_, ?_, ?_, ?_, ?_⟩ <;>
      (intros; rename_i h; injection h with h2; exact h2 ▸ rfl)
  | succ f ih =>
    obtain ⟨ihEQ, ihFR, ihFRL, ihSC, ihSA, ihSN, ihSI, ihSS, ihSF, ihDS, ihDSD,
      ihDN, ihWC, ihWL, ihWCS, ihEE, ihEB, ihEL, ihES, ihEC, ihEF, ihEA, ihEQF⟩ := ih
    refine ⟨?_, ?_, ?_, ?_, ?_, ?_, ?_, ?_, ?_, ?_, ?_, ?_, ?_, ?_, ?_, ?_, ?_,
      ?_, ?_, ?_, ?_, ?_, ?_⟩
    -- executeQuery
    · intro p rootD cur exO fcts dbg e hreg h
      simp only [executeQuery] at h
      refine ihFR _ _ _ ?_ h
      exact ⟨rfl, hreg⟩
    -- findResults
    · intro ctx node e hok h
      simp only [findResults] at h
      split at h
      · exact Except.noConfusion h
      · split at h
        · exact Except.noConfusion h
        · refine ihFRL _ _ _ _ _ ?_ h
          exact hok
    -- findResultsLoop
    · intro ctx node sels res e hok h
      cases sels with
      | nil => exact Except.noConfusion h
      | cons sel rest =>
        simp only [findResultsLoop] at h
        split at h
        · rename_i e1 heq
          have h2 := Except.error.inj h
          subst h2
          refine ihSC _ _ _ ?_ heq
          exact hok
        · split at h
          · split at h
            · exact Except.noConfusion h
            · exact ihFRL _ _ _ _ _ hok h
          · exact ihFRL _ _ _ _ _ hok h
    -- selectChildrenAndFindResultsForThem
    · intro ctx node e hok h
      simp only [selectChildrenAndFindResultsForThem] at h
      split at h
      · exact Except.noConfusion h
      · split at h
        · exact ihSA _ _ _ hok h
        · exact ihSN _ _ _ hok h
        · exact ihSI _ _ _ hok h
        · exact ihSS _ _ _ hok h
        · exact ihSF _ _ _ hok h
        · have h2 := Except.error.inj h
          subst h2
          rfl
    -- selectAllChildrenAndFindResultsForThem
    · intro ctx node e hok h
      simp only [selectAllChildrenAndFindResultsForThem] at h
      split at h
      · rename_i e1 heq
        have h2 := Except.error.inj h
        subst h2
        exact ihWC _ _ _ _ _ hok heq
      · exact Except.noConfusion h
    -- selectChildByNameAndFindResultsForThem
    · intro ctx node e hok h
      have hall : ctx.areMissingKeysAllowed = true :=
        areMissingKeysAllowed_of_allow ctx hok.1
      simp only [selectChildByNameAndFindResultsForThem] at h
      split at h
      · simp only [hall] at h
        simp at h
        split at h
        · rename_i e1 heq
          have h2 := Except.error.inj h
          subst h2
          exact ihWC _ _ _ _ _ hok heq
        · exact Except.noConfusion h
      · have h2 := Except.error.inj h
        subst h2
        rfl
    -- selectChildByIndexAndFindResultsForThem
    · intro ctx node e hok h
      have hall : ctx.areMissingKeysAllowed = true :=
        areMissingKeysAllowed_of_allow ctx hok.1
      simp only [selectChildByIndexAndFindResultsForThem] at h
      split at h
      · exact Except.noConfusion h
      · split at h
        · simp only [hall] at h
          simp at h
          split at h
          all_goals split at h
          all_goals try exact Except.noConfusion h
          all_goals (rename_i e1 heq; have h2 := Except.error.inj h; subst h2; exact ihWC _ _ _ _ _ hok heq)
        · have h2 := Except.error.inj h
          subst h2
          rfl
    -- selectChildrenBySliceAndFindResultsForThem
    · intro ctx node e hok h
      have hall : ctx.areMissingKeysAllowed = true :=
        areMissingKeysAllowed_of_allow ctx hok.1
      simp only [selectChildrenBySliceAndFindResultsForThem] at h
      split at h
      · exact Except.noConfusion h
      · split at h
        all_goals try simp [hall] at h
        all_goals try split at h
        all_goals try split at h
        all_goals try split at h
        all_goals try exact Except.noConfusion h
        all_goals try (subst h; rfl)
        all_goals (rename_i e1 heq; have h2 := Except.error.inj h; subst h2; exact ihWC _ _ _ _ _ hok heq)
    -- selectChildrenByFilterAndFindResultsForThem
    · intro ctx node e hok h
      simp only [selectChildrenByFilterAndFindResultsForThem] at h
      split at h
      · split at h
        · rename_i e1 heq
          have h2 := Except.error.inj h
          subst h2
          exact ihWC _ _ _ _ _ hok heq
        · exact Except.noConfusion h
      · have h2 := Except.error.inj h
        subst h2
        rfl
    -- doWithSelected
    · intro ctx node e hok h
      simp only [doWithSelected] at h
      split at h
      · split at h
        · exact Except.noConfusion h
        · exact ihDSD _ _ _ _ hok h
      · split at h
        · exact Except.noConfusion h
        · split at h
          · rename_i e1 heq
            have h2 := Except.error.inj h
            subst h2
            exact ihFR _ _ _ hok heq
          · split at h
            · split at h
              · exact Except.noConfusion h
              · exact ihDSD _ _ _ _ hok h
            · exact ihDSD _ _ _ _ hok h
    -- doWithSelectedDescend
    · intro ctx np res e hok h
      simp only [doWithSelectedDescend] at h
      split at h
      · split at h
        · rename_i e1 heq
          have h2 := Except.error.inj h
          subst h2
          exact ihSC _ _ _ hok heq
        · split at h
          · split at h
            · exact Except.noConfusion h
            · exact Except.noConfusion h
          · exact Except.noConfusion h
      · exact Except.noConfusion h
    -- doWithNotSelected
    · intro ctx node e hok h
      simp only [doWithNotSelected] at h
      split at h
      · exact Except.noConfusion h
      · split at h
        · exact ihSC _ _ _ hok h
        · exact Except.noConfusion h
    -- walkChildren
    · intro ctx node rev cls e hok h
      simp only [walkChildren] at h
      split at h
      · exact Except.noConfusion h
      · split at h
        all_goals try exact Except.noConfusion h
        all_goals try exact ihWL _ _ _ _ _ _ hok h
        all_goals (have h2 := Except.error.inj h; subst h2; rfl)
    -- walkLoop
    · intro ctx k items cls res e hok h
      cases items with
      | nil => exact Except.noConfusion h
      | cons it rest =>
        obtain ⟨child, fk, idx⟩ := it
        simp only [walkLoop] at h
        split at h
        · rename_i e1 heq
          have h2 := Except.error.inj h
          subst h2
          exact ihWCS _ _ _ _ _ _ _ hok heq
        · rename_i sel heqsel
          split at h
          · rename_i e2 heq2
            have h2 := Except.error.inj h
            subst h2
            cases hs : sel.1 with
            | true =>
              rw [hs] at heq2
              simp only [if_pos] at heq2
              exact ihDS _ _ _ hok heq2
            | false =>
              rw [hs] at heq2
              simp only [Bool.false_eq_true, if_neg, if_false] at heq2
              exact ihDN _ _ _ hok heq2
          · split at h
            all_goals try split at h
            all_goals try exact Except.noConfusion h
            all_goals exact ihWL _ _ _ _ _ _ hok h
    -- withChildSelect
    · intro ctx cls k child fk idx e hok h
      cases cls with
      | wildcardF => exact Except.noConfusion h
      | nameF nm mk =>
        simp only [withChildSelect] at h
        split at h
        all_goals try split at h
        all_goals try split at h
        all_goals try exact Except.noConfusion h
        all_goals (have h2 := Except.error.inj h; subst h2; rfl)
      | indexF si =>
        simp only [withChildSelect] at h
        split at h
        all_goals exact Except.noConfusion h
      | sliceF se sd ss nx =>
        simp only [withChildSelect] at h
        split at h
        all_goals try split at h
        all_goals try exact Except.noConfusion h
        all_goals (have h2 := Except.error.inj h; subst h2; rfl)
      | sliceNonArrayF =>
        simp only [withChildSelect] at h
        split at h
        all_goals try exact Except.noConfusion h
        all_goals (have h2 := Except.error.inj h; subst h2; rfl)
      | filterF expr =>
        simp only [withChildSelect] at h
        split at h
        all_goals try exact Except.noConfusion h
        all_goals try (have h2 := Except.error.inj h; subst h2; rfl)
        all_goals (rename_i e1 heq; have h2 := Except.error.inj h; subst h2; exact ihEB _ _ _ _ hok heq)
    -- evalExpr
    · intro ctx node expr e hok h
      cases expr with
      | logicalExpr l r op =>
        simp only [evalExpr] at h
        split at h
        · rename_i e1 heq
          have h2 := Except.error.inj h
          subst h2
          exact ihEL _ _ _ _ _ _ hok heq
        · exact Except.noConfusion h
      | compareExpr l r op =>
        simp only [evalExpr] at h
        split at h
        · rename_i e1 heq
          have h2 := Except.error.inj h
          subst h2
          exact ihEC _ _ _ _ _ _ hok heq
        · exact Except.noConfusion h
      | filterQry exO parser =>
        simp only [evalExpr] at h
        exact ihEQF _ _ _ _ _ hok h
      | functionExpr fct args =>
        simp only [evalExpr] at h
        exact ihEF _ _ _ _ _ hok h
      | parenExpr inner =>
        simp only [evalExpr] at h
        exact ihEE _ _ _ _ hok h
      | stringLiteral s => exact Except.noConfusion h
      | intLiteral i => exact Except.noConfusion h
      | floatLiteral fl => exact Except.noConfusion h
      | boolLiteral b => exact Except.noConfusion h
      | nullLiteral => exact Except.noConfusion h
    -- evalBoolSingularOrExistenceExpr
    · intro ctx node expr e hok h
      simp only [evalBoolSingularOrExistenceExpr] at h
      split at h
      · rename_i e1 heq
        have h2 := Except.error.inj h
        subst h2
        exact ihEE _ _ _ _ hok heq
      · exact Except.noConfusion h
      · exact Except.noConfusion h
      · split at h
        · have h2 := Except.error.inj h
          subst h2
          rfl
        · exact Except.noConfusion h
        · have h2 := Except.error.inj h
          subst h2
          rfl
    -- evalLogicalExpr
    · intro ctx node l r op e hok h
      simp only [evalLogicalExpr] at h
      split at h
      · rename_i e1 heq
        have h2 := Except.error.inj h
        subst h2
        exact ihEB _ _ _ _ hok heq
      · split at h
        · have h2 := Except.error.inj h
          subst h2
          rfl
        · split at h
          · exact Except.noConfusion h
          · split at h
            · exact Except.noConfusion h
            · split at h
              · exact Except.noConfusion h
              · split at h
                · have h2 := Except.error.inj h
                  subst h2
                  rfl
                · split at h
                  · rename_i e1 heq
                    have h2 := Except.error.inj h
                    subst h2
                    exact ihEB _ _ _ _ hok heq
                  · split at h
                    · have h2 := Except.error.inj h
                      subst h2
                      rfl
                    · exact Except.noConfusion h
    -- evalSingularExpr
    · intro ctx node expr e hok h
      simp only [evalSingularExpr] at h
      split at h
      · rename_i e1 heq
        have h2 := Except.error.inj h
        subst h2
        exact ihEE _ _ _ _ hok heq
      · exact Except.noConfusion h
      · split at h
        · have h2 := Except.error.inj h
          subst h2
          rfl
        · split at h
          · exact Except.noConfusion h
          · split at h
            · exact Except.noConfusion h
            · split at h
              · exact Except.noConfusion h
              · exact Except.noConfusion h
              · exact Except.noConfusion h
              · exact Except.noConfusion h
              · exact Except.noConfusion h
              · exact Except.noConfusion h
              · exact Except.noConfusion h
              · exact Except.noConfusion h
              · have h2 := Except.error.inj h
                subst h2
                rfl
      · exact Except.noConfusion h
    -- evalCompareExpr
    · intro ctx node l r op e hok h
      simp only [evalCompareExpr] at h
      split at h
      · rename_i e1 heq
        have h2 := Except.error.inj h
        subst h2
        exact ihES _ _ _ _ hok heq
      · split at h
        · rename_i e1 heq
          have h2 := Except.error.inj h
          subst h2
          exact ihES _ _ _ _ hok heq
        · split at h
          · exact Except.noConfusion h
          · have h2 := Except.error.inj h
            subst h2
            rfl
    -- evalFunctionExpr
    · intro ctx node fct args e hok h
      simp only [evalFunctionExpr] at h
      split at h
      · have h2 := Except.error.inj h
        subst h2
        rfl
      · rename_i fn heqf
        split at h
        · rename_i e1 heq
          have h2 := Except.error.inj h
          subst h2
          exact ihEA _ _ _ _ hok heq
        · obtain ⟨q, hq, hq2⟩ := registryLookup_mem heqf
          exact hok.2 q hq _ _ (hq2 ▸ h)
    -- evalArgsLoop
    · intro ctx node args e hok h
      cases args with
      | nil => exact Except.noConfusion h
      | cons a rest =>
        simp only [evalArgsLoop] at h
        split at h
        · rename_i e1 heq
          have h2 := Except.error.inj h
          subst h2
          exact ihEE _ _ _ _ hok heq
        · split at h
          · rename_i e1 heq
            have h2 := Except.error.inj h
            subst h2
            exact ihEA _ _ _ _ hok heq
          · exact Except.noConfusion h
    -- evalFilterQryExpr
    · intro ctx node exO parser e hok h
      simp only [evalFilterQryExpr] at h
      simp only [hok.1] at h
      simp at h
      split at h
      · rename_i e1 heq
        have h2 := Except.error.inj h
        subst h2
        exact ihEQ _ _ _ _ _ _ _ hok.2 heq
      · exact Except.noConfusion h

/-- C2 counterexample: with allowMissingKeys false a relative filter sub
query (root Current) inside a Child segment raises a missing key error on a
node lacking the selected key, contrary to the claim that it never does. -/
theorem C2_child_filter_missing_key :
    executeQuery 20 qFilterChildFix (.vArr [.vMap []]) (.vArr [.vMap []])
      false false [] false =
      .error (.missingKey "filterQry-0" "key does not exist") := rfl

/-- C2 (amended): inside a Descendant segment a relative filter sub query
(root Current) never raises a missing key error, whatever allowMissingKeys
is, as long as no registered function fabricates one; in a Child segment with
allowMissingKeys false the sub query inherits the strict policy and can raise
exactly the error the claim excludes (see the counterexample). -/
theorem C2_descendant_filter_tolerates (fuel : Nat) (ctx : qryExecContext)
    (node : RValue) (exO : Bool) (parser : QueryParserAst) (seg : SegmentAst)
    (e : ExecErr)
    (hseg : ctx.curSegment = some seg)
    (hdesc : seg.getType = .descendantSegmentType)
    (hroot : parser.root.symbol = .currentNodeSymbol)
    (hreg : regMissingKeyFree ctx.functions)
    (h : evalFilterQryExpr fuel ctx node exO parser = .error e) :
    e.isMissingKey = false := by
  match fuel with
  | 0 =>
    have h2 := Except.error.inj h
    subst h2
    rfl
  | f + 1 =>
    have hall : ctx.areMissingKeysAllowed = true := by
      simp [qryExecContext.areMissingKeysAllowed, hseg, hdesc]
    simp only [evalFilterQryExpr] at h
    have hflag : (if ¬ ctx.allowMissingKeys ∧ parser.root.symbol = .currentNodeSymbol
        then ctx.areMissingKeysAllowed else ctx.allowMissingKeys) = true := by
      split
      · exact hall
      · rename_i hcond
        rcases not_and_or.mp hcond with hc | hc
        · exact not_not.mp hc
        · exact absurd hroot hc
    rw [hflag] at h
    split at h
    · rename_i e1 heq
      have h2 := Except.error.inj h
      subst h2
      exact (exec_no_missingKey f).1 _ _ _ _ _ _ _ hreg heq
    · exact Except.noConfusion h

/-- C2 witness: a genuine (non missing key) failure of a relative filter sub
query under a Descendant segment: the filter calls an unregistered function,
and the tolerance theorem classifies the resulting error. -/
theorem C2_descendant_filter_tolerates_witness :
    (ExecErr.execution "filterQry-1" "fct does not exist").isMissingKey = false :=
  C2_descendant_filter_tolerates 20 ctxDescFix (.vArr [.vInt 1]) false qryFnFix
    segDescFix _ rfl rfl rfl (by simp [regMissingKeyFree, ctxDescFix]) (by rfl)

/-- The slice selection closure selects exactly on matching index with the
bound check in the traversal direction, advancing the next index by the
step. -/
theorem withChildSelect_sliceF (fuel : Nat) (ctx : qryExecContext)
    (E dir K next : Int) (child : RValue) (fk : FieldKey) (index : Int)
    (h : 1 ≤ fuel) :
    withChildSelect fuel ctx (.sliceF E dir K next) .kArray child fk index =
      .ok (if index = next ∧ (dir > 0 ∧ next < E ∨ dir < 0 ∧ next > E)
           then (true, .sliceF E dir K (next + K))
           else (false, .sliceF E dir K next)) := by
  match fuel, h with
  | f + 1, _ =>
    by_cases hc : index = next ∧ (dir > 0 ∧ next < E ∨ dir < 0 ∧ next > E)
    · simp [withChildSelect, hc]
    · simp [withChildSelect, hc]

/-- With no remaining segments, no existence short cut and no descent, a
selected child is returned alone. -/
theorem doWithSelected_simple (fuel : Nat) (ctx : qryExecContext) (child : RValue)
    (hfuel : 2 ≤ fuel) (hrem : ctx.remainingSegments = [])
    (hex : ctx.evalExistenceOnly = false) (hnd : ctx.isDescending = false) :
    doWithSelected fuel ctx child = .ok (some [child]) := by
  match fuel, hfuel with
  | f + 1, hfuel =>
    have hf : 1 ≤ f := by omega
    match f, hf with
    | g + 1, _ =>
      simp [doWithSelected, doWithSelectedDescend, hrem, hex, hnd]

/-- With no descent an unselected child contributes nothing. -/
theorem doWithNotSelected_simple (fuel : Nat) (ctx : qryExecContext) (node : RValue)
    (hfuel : 1 ≤ fuel) (hnd : ctx.isDescending = false) :
    doWithNotSelected fuel ctx node = .ok (some []) := by
  match fuel, hfuel with
  | f + 1, _ => simp [doWithNotSelected, hnd]

/-- The walk loop under the slice closure accumulates exactly the pure slice
selection of the prepared items. -/
theorem walkLoop_sliceF (ctx : qryExecContext)
    (hrem : ctx.remainingSegments = []) (hex : ctx.evalExistenceOnly = false)
    (hnd : ctx.isDescending = false) (E dir K : Int) :
    ∀ (items : List (RValue × FieldKey × Int)) (fuel : Nat) (next : Int)
      (acc : List RValue), items.length + 3 ≤ fuel →
      ∃ next2, walkLoop fuel ctx .kArray items (.sliceF E dir K next) acc =
        .ok (some (acc ++ sliceGoldItems E dir K next items),
          .sliceF E dir K next2) := by
  intro items
  induction items with
  | nil =>
    intro fuel next acc hfuel
    match fuel, hfuel with
    | f + 1, _ => exact ⟨next, by simp [walkLoop, sliceGoldItems]⟩
  | cons it rest ih =>
    intro fuel next acc hfuel
    obtain ⟨child, fk, idx⟩ := it
    match fuel, hfuel with
    | f + 1, hfuel =>
      have hf3 : rest.length + 3 ≤ f := by
        simp only [List.length_cons] at hfuel
        omega
      by_cases hc : idx = next ∧ (dir > 0 ∧ next < E ∨ dir < 0 ∧ next > E)
      · obtain ⟨n2, hrec⟩ := ih f (next + K) (acc ++ [child]) hf3
        refine ⟨n2, ?_⟩
        simp only [walkLoop]
        rw [withChildSelect_sliceF f ctx E dir K next child fk idx (by omega),
          if_pos hc,
          doWithSelected_simple f ctx child (by omega) hrem hex hnd]
        simp only [sliceGoldItems, if_pos hc, hex]
        simp [hrec, List.append_assoc]
      · obtain ⟨n2, hrec⟩ := ih f next acc hf3
        refine ⟨n2, ?_⟩
        simp only [walkLoop]
        rw [withChildSelect_sliceF f ctx E dir K next child fk idx (by omega),
          if_neg hc,
          doWithNotSelected_simple f ctx child (by omega) hnd]
        simp only [sliceGoldItems, if_neg hc, hex]
        simp [hrec]

/-- The array walk items are the elements paired with the empty field key and
their index. -/
theorem enum_map_eq_ascItems (elems : List RValue) :
    elems.enum.map (fun p => (p.2, FieldKey.fkStr "", (p.1 : Int))) =
      ascItems elems 0 elems.length := by
  apply List.ext_getElem
  · simp [ascItems]
  · intro i h1 h2
    simp only [ascItems, List.getElem_map, List.getElem_enum, List.getElem_range']
    have hi : i < elems.length := by simpa [ascItems] using h2
    simp [List.getD_eq_getElem elems .vNull hi, List.getElem?_eq_getElem hi]

/-- With a positive step over ascending items the slice selection is exactly
the arithmetic progression filter: indices at or after next, congruent to
next modulo the step and strictly before the end. -/
theorem sliceGoldItems_asc (elems : List RValue) (E K : Int) (hK : 0 < K) :
    ∀ (m a : Nat) (next : Int), ((a : Int) ≤ next ∨ E ≤ next) →
      sliceGoldItems E 1 K next (ascItems elems a m) =
        ((List.range' a m).filter (sliceFilterPred next E K)).map
          (fun i => elems.getD i .vNull) := by
  intro m
  induction m with
  | zero => intro a next _; rfl
  | succ m ih =>
    intro a next hinv
    have hasc : ascItems elems a (m + 1) =
        (elems.getD a .vNull, FieldKey.fkStr "", (a : Int)) ::
          ascItems elems (a + 1) m := by
      simp [ascItems, List.range'_succ]
    rw [hasc, List.range'_succ, List.filter_cons]
    simp only [sliceGoldItems]
    by_cases ha : (a : Int) = next
    · by_cases hE : next < E
      · rw [if_pos ⟨ha, Or.inl ⟨Int.one_pos, hE⟩⟩]
        have hpred : sliceFilterPred next E K a = true := by
          simp [sliceFilterPred, ha, hE]
        rw [if_pos hpred]
        simp only [List.map_cons]
        congr 1
        rw [ih (a + 1) (next + K) (Or.inl (by push_cast; omega))]
        congr 1
        apply List.filter_congr
        intro i hi
        have hmem := List.mem_range'_1.mp hi
        have hgt : next < (i : Int) := by
          have h1 : a + 1 ≤ i := hmem.1
          omega
        by_cases hdvd : ((i : Int) - next) % K = 0
        · have hdvd2 : K ∣ ((i : Int) - next) := Int.dvd_of_emod_eq_zero hdvd
          have hge : next + K ≤ (i : Int) := by
            have := Int.le_of_dvd (by omega) hdvd2
            omega
          have hdvd3 : ((i : Int) - (next + K)) % K = 0 := by
            refine Int.emod_eq_zero_of_dvd ?_
            have h5 := dvd_sub hdvd2 (dvd_refl K)
            have h6 : (i : Int) - next - K = (i : Int) - (next + K) := by ring
            rwa [h6] at h5
          simp [sliceFilterPred, hdvd, hdvd3, le_of_lt hgt, hge]
        · have hdvd3 : ¬ ((i : Int) - (next + K)) % K = 0 := by
            intro hcon
            apply hdvd
            refine Int.emod_eq_zero_of_dvd ?_
            have h4 : K ∣ ((i : Int) - (next + K)) := Int.dvd_of_emod_eq_zero hcon
            have h5 := dvd_add h4 (dvd_refl K)
            have h6 : (i : Int) - (next + K) + K = (i : Int) - next := by ring
            rwa [h6] at h5
          simp [sliceFilterPred, hdvd, hdvd3]
      · have hcnot : ¬ ((a : Int) = next ∧
            ((1 : Int) > 0 ∧ next < E ∨ (1 : Int) < 0 ∧ next > E)) := by
          rintro ⟨h1, h2 | h2⟩
          · exact hE h2.2
          · omega
        rw [if_neg hcnot]
        have hpred : sliceFilterPred next E K a = false := by
          simp [sliceFilterPred, ha, hE]
        rw [hpred]
        simp only [Bool.false_eq_true, if_false]
        exact ih (a + 1) next (Or.inr (by omega))
    · have hcnot : ¬ ((a : Int) = next ∧
          ((1 : Int) > 0 ∧ next < E ∨ (1 : Int) < 0 ∧ next > E)) :=
        fun hc => ha hc.1
      rw [if_neg hcnot]
      have hane : (a : Int) ≠ next := ha
      have hpred : sliceFilterPred next E K a = false := by
        rcases lt_or_gt_of_ne hane with hlt | hgt
        · have hn : ¬ (next ≤ (a : Int)) := by omega
          simp [sliceFilterPred, hn]
        · have hEn : E ≤ next := by
            rcases hinv with h1 | h1
            · omega
            · exact h1
          have hn : ¬ ((a : Int) < E) := by omega
          simp [sliceFilterPred, hn]
      rw [hpred]
      simp only [Bool.false_eq_true, if_false]
      refine ih (a + 1) next ?_
      rcases lt_or_gt_of_ne hane with hlt | hgt
      · exact Or.inl (by push_cast; omega)
      · refine Or.inr ?_
        rcases hinv with h1 | h1
        · omega
        · exact h1

/-- Whatever the items, the slice selection yields children of a sublist of
the items, in item order. -/
theorem sliceGoldItems_sublist (E dir K : Int) :
    ∀ (items : List (RValue × FieldKey × Int)) (next : Int),
      ∃ sub : List (RValue × FieldKey × Int), sub.Sublist items ∧
        sliceGoldItems E dir K next items = sub.map (·.1) := by
  intro items
  induction items with
  | nil => exact fun _ => ⟨[], .slnil, rfl⟩
  | cons it rest ih =>
    intro next
    by_cases hc : it.2.2 = next ∧ (dir > 0 ∧ next < E ∨ dir < 0 ∧ next > E)
    · obtain ⟨sub, hs, hmap⟩ := ih (next + K)
      refine ⟨it :: sub, hs.cons₂ it, ?_⟩
      simp only [sliceGoldItems]
      rw [if_pos hc]
      simp [hmap]
    · obtain ⟨sub, hs, hmap⟩ := ih next
      refine ⟨sub, hs.cons it, ?_⟩
      simp only [sliceGoldItems]
      rw [if_neg hc]
      exact hmap

/-- With a negative direction and the end at or above the next index nothing
is ever selected. -/
theorem sliceGoldItems_none (E K : Int) :
    ∀ (items : List (RValue × FieldKey × Int)) (next : Int), next ≤ E →
      sliceGoldItems E (-1) K next items = [] := by
  intro items
  induction items with
  | nil => exact fun _ _ => rfl
  | cons it rest ih =>
    intro next hle
    simp only [sliceGoldItems]
    rw [if_neg ?hc]
    · exact ih next hle
    case hc =>
      rintro ⟨h1, h2 | h2⟩
      · omega
      · omega

/-- Resolution facts for a positive step: the start is clamped at zero and
the direction is ascending. -/
theorem resolveSliceParams_posK (n : Int) (start stop : OptionalInt) (K : Int)
    (hK : 0 < K) :
    0 ≤ (resolveSliceParams n start stop K).1 ∧
      (resolveSliceParams n start stop K).2.2 = 1 := by
  have hneg : ¬ (K < 0) := by omega
  simp only [resolveSliceParams, if_neg hneg]
  refine ⟨?_, trivial⟩
  dsimp only
  split
  · split
    · split <;> omega
    · omega
  · exact le_refl 0

/-- Resolution facts for a negative step: the direction is descending. -/
theorem resolveSliceParams_negK (n : Int) (start stop : OptionalInt) (K : Int)
    (hK : K < 0) :
    (resolveSliceParams n start stop K).2.2 = -1 := by
  simp only [resolveSliceParams, if_pos hK]

/-- C3: slice selection on an array. With the slice selector current and no
remaining work: step zero yields the nil ResultSet (an empty result); a
positive step yields exactly the elements at the resolved positions S, S+K,
S+2K and so on that lie strictly before the resolved end, in increasing index
order; a negative step yields elements at strictly decreasing indices
(a sublist of the reversed index range); and a step whose sign opposes the
direction implied by the resolved start and end yields an empty result. -/
theorem C3_slice_semantics (elems : List RValue) (start stop : OptionalInt)
    (K : Int) (ctx : qryExecContext) (fuel : Nat)
    (hfuel : elems.length + 6 ≤ fuel)
    (hsel : ctx.curSelector = some (.arraySliceSelector start stop K))
    (hrem : ctx.remainingSegments = [])
    (hex : ctx.evalExistenceOnly = false)
    (hnd : ctx.isDescending = false) :
    (K = 0 →
       selectChildrenBySliceAndFindResultsForThem fuel ctx (.vArr elems) = .ok none) ∧
    (0 < K →
       selectChildrenBySliceAndFindResultsForThem fuel ctx (.vArr elems) =
         .ok (some (((List.range elems.length).filter
             (sliceFilterPred (resolveSliceParams (elems.length : Int) start stop K).1
               (resolveSliceParams (elems.length : Int) start stop K).2.1 K)).map
           (fun i => elems.getD i .vNull)))) ∧
    (K < 0 → ∃ idxs : List Nat,
       idxs.Sublist (List.range elems.length).reverse ∧
       selectChildrenBySliceAndFindResultsForThem fuel ctx (.vArr elems) =
         .ok (some (idxs.map (fun i => elems.getD i .vNull)))) ∧
    (K < 0 →
       (resolveSliceParams (elems.length : Int) start stop K).1 ≤
         (resolveSliceParams (elems.length : Int) start stop K).2.1 →
       selectChildrenBySliceAndFindResultsForThem fuel ctx (.vArr elems) =
         .ok (some [])) ∧
    (0 < K →
       (resolveSliceParams (elems.length : Int) start stop K).2.1 ≤
         (resolveSliceParams (elems.length : Int) start stop K).1 →
       selectChildrenBySliceAndFindResultsForThem fuel ctx (.vArr elems) =
         .ok (some [])) := by
  match fuel, hfuel with
  | 0, hfuel => exact absurd hfuel (by omega)
  | 1, hfuel => exact absurd hfuel (by omega)
  | g + 2, hfuel =>
    have hg : elems.length + 3 ≤ g := by omega
    have hred : ∀ hKne : ¬ (K = 0),
        selectChildrenBySliceAndFindResultsForThem (g + 2) ctx (.vArr elems) =
          (match walkChildren (g + 1) ctx (.vArr elems)
              (decide ((resolveSliceParams (elems.length : Int) start stop K).2.2 < 0))
              (.sliceF (resolveSliceParams (elems.length : Int) start stop K).2.1
                (resolveSliceParams (elems.length : Int) start stop K).2.2 K
                (resolveSliceParams (elems.length : Int) start stop K).1) with
           | .error e => .error e.1
           | .ok r => .ok r.1) := by
      intro hKne
      simp [selectChildrenBySliceAndFindResultsForThem, hsel, indirect, isNullRV,
        kindOf, hKne, rvLen]
    have hwalk : ∀ (rev : Bool) (cls : SelClosure),
        walkChildren (g + 1) ctx (.vArr elems) rev cls =
          walkLoop g ctx .kArray
            (if rev then (ascItems elems 0 elems.length).reverse
             else ascItems elems 0 elems.length) cls [] := by
      intro rev cls
      simp [walkChildren, indirect, isNullRV, enum_map_eq_ascItems]
    have hKposEq : ∀ hKpos : 0 < K,
        selectChildrenBySliceAndFindResultsForThem (g + 2) ctx (.vArr elems) =
          .ok (some (((List.range elems.length).filter
              (sliceFilterPred (resolveSliceParams (elems.length : Int) start stop K).1
                (resolveSliceParams (elems.length : Int) start stop K).2.1 K)).map
            (fun i => elems.getD i .vNull))) := by
      intro hKpos
      obtain ⟨hS0, hdir⟩ :=
        resolveSliceParams_posK (elems.length : Int) start stop K hKpos
      rw [hred (by omega), hdir, hwalk]
      simp only [show decide ((1 : Int) < 0) = false from rfl, if_false,
        Bool.false_eq_true]
      obtain ⟨n2, hloop⟩ := walkLoop_sliceF ctx hrem hex hnd
        (resolveSliceParams (elems.length : Int) start stop K).2.1 1 K
        (ascItems elems 0 elems.length) g
        (resolveSliceParams (elems.length : Int) start stop K).1 []
        (by simp [ascItems]; omega)
      rw [hloop]
      rw [sliceGoldItems_asc elems _ K hKpos elems.length 0
        (resolveSliceParams (elems.length : Int) start stop K).1
        (Or.inl (by push_cast; omega))]
      rw [List.range_eq_range']
      rfl
    refine ⟨fun hK0 => ?_, hKposEq, fun hKneg => ?_, fun hKneg hES => ?_,
      fun hKpos hES => ?_⟩
    · subst hK0
      simp [selectChildrenBySliceAndFindResultsForThem, hsel, indirect, isNullRV,
        kindOf]
    · have hdir := resolveSliceParams_negK (elems.length : Int) start stop K hKneg
      rw [hred (by omega), hdir, hwalk]
      simp only [show decide ((-1 : Int) < 0) = true from rfl, if_true]
      obtain ⟨n2, hloop⟩ := walkLoop_sliceF ctx hrem hex hnd
        (resolveSliceParams (elems.length : Int) start stop K).2.1 (-1) K
        ((ascItems elems 0 elems.length).reverse) g
        (resolveSliceParams (elems.length : Int) start stop K).1 []
        (by simp [ascItems]; omega)
      rw [hloop]
      obtain ⟨sub, hsub, hmap⟩ := sliceGoldItems_sublist
        (resolveSliceParams (elems.length : Int) start stop K).2.1 (-1) K
        ((ascItems elems 0 elems.length).reverse)
        (resolveSliceParams (elems.length : Int) start stop K).1
      have hrevmap : (ascItems elems 0 elems.length).reverse =
          (List.range' 0 elems.length).reverse.map
            (fun i => (elems.getD i .vNull, FieldKey.fkStr "", (i : Int))) := by
        simp [ascItems, List.map_reverse]
      rw [hrevmap] at hsub
      obtain ⟨idxs, hidxs, hsubeq⟩ := List.sublist_map_iff.mp hsub
      refine ⟨idxs, by rw [List.range_eq_range']; exact hidxs, ?_⟩
      rw [hmap, hsubeq]
      simp [List.map_map, Function.comp]
    · have hdir := resolveSliceParams_negK (elems.length : Int) start stop K hKneg
      rw [hred (by omega), hdir, hwalk]
      simp only [show decide ((-1 : Int) < 0) = true from rfl, if_true]
      obtain ⟨n2, hloop⟩ := walkLoop_sliceF ctx hrem hex hnd
        (resolveSliceParams (elems.length : Int) start stop K).2.1 (-1) K
        ((ascItems elems 0 elems.length).reverse) g
        (resolveSliceParams (elems.length : Int) start stop K).1 []
        (by simp [ascItems]; omega)
      rw [hloop]
      rw [sliceGoldItems_none _ K _ _ hES]
      rfl
    · rw [hKposEq hKpos]
      have hfil : (List.range elems.length).filter
          (sliceFilterPred (resolveSliceParams (elems.length : Int) start stop K).1
            (resolveSliceParams (elems.length : Int) start stop K).2.1 K) = [] := by
        refine List.filter_eq_nil_iff.mpr ?_
        intro i _
        simp only [sliceFilterPred]
        intro hcon
        simp only [Bool.and_eq_true, decide_eq_true_eq] at hcon
        omega
      rw [hfil]
      rfl

/-- C3 witness: the slice semantics applied to the six element array with the
slice from one to five by two (elements b and d, in increasing index order)
and with step zero (the nil ResultSet). -/
theorem C3_slice_semantics_witness :
    selectChildrenBySliceAndFindResultsForThem 12 (ctxSliceFix ⟨true, 1⟩ ⟨true, 5⟩ 2)
        (.vArr elemsFix) =
      .ok (some (((List.range 6).filter (sliceFilterPred 1 5 2)).map
        (fun i => elemsFix.getD i .vNull))) ∧
    ((List.range 6).filter (sliceFilterPred 1 5 2)).map
        (fun i => elemsFix.getD i .vNull) = [.vStr "b", .vStr "d"] ∧
    selectChildrenBySliceAndFindResultsForThem 12 (ctxSliceFix ⟨true, 0⟩ ⟨true, 5⟩ 0)
        (.vArr elemsFix) = .ok none := by
  refine ⟨?_, rfl, ?_⟩
  · exact (C3_slice_semantics elemsFix ⟨true, 1⟩ ⟨true, 5⟩ 2
      (ctxSliceFix ⟨true, 1⟩ ⟨true, 5⟩ 2) 12 (by decide) rfl rfl rfl rfl).2.1
      (by decide)
  · exact (C3_slice_semantics elemsFix ⟨true, 0⟩ ⟨true, 5⟩ 0
      (ctxSliceFix ⟨true, 0⟩ ⟨true, 5⟩ 0) 12 (by decide) rfl rfl rfl rfl).1 rfl

end JsonpathGo
